import Mathlib

/-!
Verification development for the `cv-evaluator` asynchronous evaluation
pipeline.  The Go sources are shallowly embedded: pure functions become Lean
functions, stateful repository operations become explicit state passing over a
job-record type, and external collaborators (database driver, Gemini client,
Qdrant client, PDF parser, JSON decoder) become oracle parameters.  Go strings
are modeled as Lean strings, or as `List Char` where character-level scanning
matters; one character stands for one byte (the ASCII fragment, where Go byte
length, rune count and Lean character count agree).  `float64` values are
carried as `Rat` — the pipeline only stores and forwards scores, it performs
no floating-point arithmetic — and `fmt` float formatting is an oracle.
Timestamps (`created_at` / `updated_at`) are not modeled: no specified
behavior depends on them.
-/

namespace CVEval

/-! ## Job store model (internal/models + internal/repositories/evaluation.go)

The `evaluations` table row for one job id.  `gorm` mechanics are abstracted
to a state of type `Option JobRecord`: `none` models "no row with this id"
(`RowsAffected == 0` / `ErrRecordNotFound`), `some j` models the stored row.
-/

/-- Status enum from `internal/models` (part_005): queued, processing,
completed, failed. -/
inductive EvaluationStatus where
  | queued
  | processing
  | completed
  | failed
deriving DecidableEq, Repr

/-- The `Evaluation` model (part_005): nullable result fields are `Option`;
document references are opaque ids (`Nat`); timestamps omitted. -/
structure JobRecord where
  jobTitle : String
  cvDocumentID : Nat
  projectDocumentID : Nat
  status : EvaluationStatus
  cvMatchRate : Option Rat
  cvFeedback : Option String
  projectScore : Option Rat
  projectFeedback : Option String
  overallSummary : Option String
  errorMessage : Option String
deriving DecidableEq, Repr

/-- `EvaluationUpdateData` from `internal/repositories/evaluation.go`:
five pointer fields, `none` modeling a nil pointer. -/
structure EvaluationUpdateData where
  cvMatchRate : Option Rat
  cvFeedback : Option String
  projectScore : Option Rat
  projectFeedback : Option String
  overallSummary : Option String
deriving DecidableEq, Repr

/-- `EvaluationRepository.FindByID`: `ErrRecordNotFound` becomes the
"evaluation not found" error, otherwise the row is returned. -/
def findByID (store : Option JobRecord) : Except String JobRecord :=
  match store with
  | none => Except.error ("evaluation not found")
  | some j => Except.ok j

/-- `EvaluationRepository.UpdateStatus`: sets only the `status` column
(and `updated_at`, not modeled); errors with "evaluation not found" when no
row was affected. -/
def updateStatus (store : Option JobRecord) (st : EvaluationStatus) :
    Option JobRecord × Except String Unit :=
  match store with
  | none => (none, Except.error ("evaluation not found"))
  | some j => (some { j with status := st }, Except.ok ())

/-- `EvaluationRepository.UpdateResult`: unconditionally sets
`status = completed`, and sets each result column only when the
corresponding pointer in the update data is non-nil. -/
def updateResult (store : Option JobRecord) (data : EvaluationUpdateData) :
    Option JobRecord × Except String Unit :=
  match store with
  | none => (none, Except.error ("evaluation not found"))
  | some j =>
      (some { j with
        status := EvaluationStatus.completed
        cvMatchRate := match data.cvMatchRate with
          | some v => some v
          | none => j.cvMatchRate
        cvFeedback := match data.cvFeedback with
          | some v => some v
          | none => j.cvFeedback
        projectScore := match data.projectScore with
          | some v => some v
          | none => j.projectScore
        projectFeedback := match data.projectFeedback with
          | some v => some v
          | none => j.projectFeedback
        overallSummary := match data.overallSummary with
          | some v => some v
          | none => j.overallSummary }, Except.ok ())

/-- `EvaluationRepository.UpdateError`: sets `status = failed` and the
`error_message` column. -/
def updateError (store : Option JobRecord) (errorMsg : String) :
    Option JobRecord × Except String Unit :=
  match store with
  | none => (none, Except.error ("evaluation not found"))
  | some j =>
      (some { j with
        status := EvaluationStatus.failed
        errorMessage := some errorMsg }, Except.ok ())

/-- All five optional result columns of a row are populated. -/
def resultFieldsPopulated (j : JobRecord) : Bool :=
  j.cvMatchRate.isSome && j.cvFeedback.isSome && j.projectScore.isSome &&
    j.projectFeedback.isSome && j.overallSummary.isSome

/-- The spec's job invariant (section 3 of the spec): result fields are
populated iff the status is Completed, and the error message is populated iff
the status is Failed. -/
def jobInvariant (j : JobRecord) : Prop :=
  (resultFieldsPopulated j = true ↔ j.status = EvaluationStatus.completed) ∧
    (j.errorMessage.isSome = true ↔ j.status = EvaluationStatus.failed)

instance (j : JobRecord) : Decidable (jobInvariant j) := by
  unfold jobInvariant; infer_instance

/-- A freshly created job row: status queued, no result fields, no error
message (the state a row has right after `Create`). -/
def freshJob (j : JobRecord) : Prop :=
  j.status = EvaluationStatus.queued ∧ j.cvMatchRate = none ∧
    j.cvFeedback = none ∧ j.projectScore = none ∧ j.projectFeedback = none ∧
    j.overallSummary = none ∧ j.errorMessage = none

/-- A concrete invariant-satisfying Failed row, used to exhibit that
`updateResult` does not preserve the job invariant. -/
def c1FailedJob : JobRecord :=
  { jobTitle := "Backend Engineer"
    cvDocumentID := 1
    projectDocumentID := 2
    status := EvaluationStatus.failed
    cvMatchRate := none
    cvFeedback := none
    projectScore := none
    projectFeedback := none
    overallSummary := none
    errorMessage := some ("CV document not found: document not found") }

/-- A full update payload (all five pointers non-nil), as built in step 6 of
`EvaluateCandidate`. -/
def c1FullData : EvaluationUpdateData :=
  { cvMatchRate := some (4/5)
    cvFeedback := some ("solid CV")
    projectScore := some (4)
    projectFeedback := some ("solid project")
    overallSummary := some ("hire") }

/-- Claim C1, counterexample: the transition operations do not preserve the
job invariant from an arbitrary invariant-satisfying state.  The concrete
Failed row `c1FailedJob` satisfies the invariant, yet applying `updateResult`
with a full payload yields a Completed row that still carries the stale error
message, so the invariant is violated. -/
theorem c1_updateResult_breaks_invariant :
    jobInvariant c1FailedJob ∧
      ¬ jobInvariant ((updateResult (some c1FailedJob) c1FullData).1.getD c1FailedJob) := by
  constructor
  · decide
  · decide

/-- Claim C1, amended: along the pipeline's actual transition path the
invariant does hold.  Starting from a freshly created row (status queued, no
result fields, no error message), the invariant holds initially, after
`updateStatus` to Processing, after `updateError` (the failure exit), and
after `updateResult` with all five result fields supplied (the success exit,
as built in step 6 of `EvaluateCandidate`).  What fails is preservation from
arbitrary invariant-satisfying states (see the counterexample): `updateResult`
does not clear a stale error message and `updateStatus` alone moves a row
without touching the result or error columns. -/
theorem c1_pipeline_path_invariant (j : JobRecord) (msg : String)
    (mr ps : Rat) (cf pf os : String) (hfresh : freshJob j) :
    jobInvariant j ∧
      jobInvariant { j with status := EvaluationStatus.processing } ∧
      jobInvariant
        ((updateError (some { j with status := EvaluationStatus.processing }) msg).1.getD j) ∧
      jobInvariant
        ((updateResult (some { j with status := EvaluationStatus.processing })
          { cvMatchRate := some mr, cvFeedback := some cf, projectScore := some ps,
            projectFeedback := some pf, overallSummary := some os }).1.getD j) := by
  obtain ⟨h1, h2, h3, h4, h5, h6, h7⟩ := hfresh
  refine ⟨⟨?_, ?_⟩, ⟨?_, ?_⟩, ⟨?_, ?_⟩, ⟨?_, ?_⟩⟩ <;>
    simp [resultFieldsPopulated, updateError, updateResult, h1, h2, h3, h4, h5, h6, h7]

/-- A concrete freshly created row, used to instantiate run-level theorems. -/
def sampleFreshJob : JobRecord :=
  { jobTitle := "Backend Engineer"
    cvDocumentID := 1
    projectDocumentID := 2
    status := EvaluationStatus.queued
    cvMatchRate := none
    cvFeedback := none
    projectScore := none
    projectFeedback := none
    overallSummary := none
    errorMessage := none }

/-- Witness for `c1_pipeline_path_invariant` at a concrete fresh row. -/
theorem c1_pipeline_path_invariant_witness :
    jobInvariant sampleFreshJob ∧
      jobInvariant { sampleFreshJob with status := EvaluationStatus.processing } ∧
      jobInvariant
        ((updateError (some { sampleFreshJob with status := EvaluationStatus.processing })
          "boom").1.getD sampleFreshJob) ∧
      jobInvariant
        ((updateResult (some { sampleFreshJob with status := EvaluationStatus.processing })
          { cvMatchRate := some (1/2), cvFeedback := some "cv fb", projectScore := some 4,
            projectFeedback := some "proj fb",
            overallSummary := some "summary" }).1.getD sampleFreshJob) :=
  c1_pipeline_path_invariant sampleFreshJob
    "boom" (1/2) 4 "cv fb" "proj fb" "summary"
    ⟨rfl, rfl, rfl, rfl, rfl, rfl, rfl⟩

/-! ## Retrying generation wrapper (internal/services/gemini.go)

`GenerateTextWithRetry` loops `attempt = 1 .. maxRetries` over `GenerateText`,
short-circuiting on the first success, recording the last error, and checking
context cancellation between attempts.  The underlying client is an oracle
`gen : Nat → Except String String` mapping the attempt number to that
attempt's outcome; the context is a boolean `ctxDone` (`ctx.Done()` closed).
The structured wrapping of `fmt.Errorf` is modeled by `GenError`.
-/

/-- Error results of `GenerateTextWithRetry`: `cancelled` models
`fmt.Errorf("context cancelled: %w", ctx.Err())`, `exhausted n last` models
`fmt.Errorf("failed after %d attempts: %w", maxRetries, lastErr)` wrapping the
last underlying error (`none` when no attempt ran). -/
inductive GenError where
  | cancelled
  | exhausted (attempts : Nat) (last : Option String)
deriving DecidableEq, Repr

/-- Rendering of a `GenError` as the Go error string (`err.Error()`), used
when the evaluator interpolates it with `%v` / `%w`. -/
def genErrString : GenError → String
  | GenError.cancelled => "context cancelled: context canceled"
  | GenError.exhausted n last =>
      "failed after " ++ toString n ++ " attempts: " ++
        (match last with
         | some e => e
         | none => "%!w(<nil>)")

/-- The retry loop of `GenerateTextWithRetry`, structurally recursive on the
number of remaining attempts.  With `remaining = r + 1` the attempt being run
is `maxRetries - r`, so the top-level call `remaining = maxRetries` runs
attempts `1 .. maxRetries`.  The pair's second component counts the
underlying `GenerateText` calls made. -/
def retryAux (gen : Nat → Except String String) (ctxDone : Bool)
    (maxRetries : Nat) : Nat → Option String → Except GenError String × Nat
  | 0, lastErr => (Except.error (GenError.exhausted maxRetries lastErr), 0)
  | r + 1, _ =>
      match gen (maxRetries - r) with
      | Except.ok s => (Except.ok s, 1)
      | Except.error e =>
          if ctxDone then (Except.error GenError.cancelled, 1)
          else
            let rest := retryAux gen ctxDone maxRetries r (some e)
            (rest.1, rest.2 + 1)

/-- `GenerateTextWithRetry` (gemini.go): run the loop with the full budget
and no recorded error. -/
def generateTextWithRetry (gen : Nat → Except String String) (ctxDone : Bool)
    (maxRetries : Nat) : Except GenError String × Nat :=
  retryAux gen ctxDone maxRetries maxRetries none

theorem retryAux_first_success (gen : Nat → Except String String) (M : Nat) :
    ∀ r le k s, r ≤ M → M - r < k → k ≤ M →
      (∀ i, M - r < i → i < k → ∃ e, gen i = Except.error e) →
      gen k = Except.ok s →
      retryAux gen false M r le = (Except.ok s, k - (M - r)) := by
  intro r
  induction r with
  | zero => intro le k s h1 h2 h3 _ _; omega
  | succ r ih =>
      intro le k s h1 h2 h3 hfail hk
      by_cases hk' : k = M - r
      · subst hk'
        simp only [retryAux, hk]
        congr 1
        omega
      · have ha : M - (r + 1) < M - r := by omega
        have hb : M - r < k := by omega
        obtain ⟨e, he⟩ := hfail (M - r) ha hb
        simp only [retryAux, he, Bool.false_eq_true, if_false]
        rw [ih (some e) k s (by omega) hb h3
          (fun i hi1 hi2 => hfail i (by omega) hi2) hk]
        simp only []
        congr 1
        omega

theorem retryAux_all_fail (gen : Nat → Except String String) (M : Nat) :
    ∀ r le eM, r ≤ M → 1 ≤ r →
      (∀ i, M - r < i → i ≤ M → ∃ e, gen i = Except.error e) →
      gen M = Except.error eM →
      retryAux gen false M r le =
        (Except.error (GenError.exhausted M (some eM)), r) := by
  intro r
  induction r with
  | zero => intro le eM _ h2 _ _; omega
  | succ r ih =>
      intro le eM h1 _ hfail hM
      rcases Nat.eq_zero_or_pos r with hr | hr
      · subst hr
        simp [retryAux, hM]
      · have ha : M - (r + 1) < M - r := by omega
        have hb : M - r ≤ M := by omega
        obtain ⟨e, he⟩ := hfail (M - r) ha hb
        simp only [retryAux, he, Bool.false_eq_true, if_false]
        rw [ih (some e) eM (by omega) hr
          (fun i hi1 hi2 => hfail i (by omega) hi2) hM]

/-- A generation oracle that fails on attempts 1 and 2 and succeeds on
attempt 3. -/
def c3FlakyGen : Nat → Except String String :=
  fun i => if i ≤ 2 then Except.error "boom" else Except.ok "recovered"

/-- A generation oracle that fails on every attempt. -/
def c3AlwaysFailGen : Nat → Except String String :=
  fun _ => Except.error "boom"

/-- Claim C3: with a budget of `M ≥ 1` attempts and an uncancelled context,
`GenerateTextWithRetry` (a) returns the result of the first successful
underlying `GenerateText` call, making exactly that many calls
(short-circuiting immediately), and (b) when every attempt fails it makes
exactly `M` calls and returns the error wrapping the last underlying error;
in particular a collaborator failing twice then succeeding on a 3-attempt
budget yields the success result after exactly 3 calls, and one that always
fails yields the exhaustion error wrapping "boom" after exactly 3 calls. -/
theorem c3_retry_behavior (gen : Nat → Except String String) (M : Nat)
    (hM : 1 ≤ M) :
    (∀ k s, 1 ≤ k → k ≤ M →
      (∀ i, 1 ≤ i → i < k → ∃ e, gen i = Except.error e) →
      gen k = Except.ok s →
      generateTextWithRetry gen false M = (Except.ok s, k)) ∧
    (∀ eM, (∀ i, 1 ≤ i → i ≤ M → ∃ e, gen i = Except.error e) →
      gen M = Except.error eM →
      generateTextWithRetry gen false M =
        (Except.error (GenError.exhausted M (some eM)), M)) ∧
    generateTextWithRetry c3FlakyGen false 3 = (Except.ok "recovered", 3) ∧
    generateTextWithRetry c3AlwaysFailGen false 3 =
      (Except.error (GenError.exhausted 3 (some "boom")), 3) := by
  refine ⟨?_, ?_, rfl, rfl⟩
  · intro k s hk1 hk2 hfail hok
    have := retryAux_first_success gen M M none k s (le_refl M)
      (by omega) hk2 (fun i hi1 hi2 => hfail i (by omega) hi2) hok
    simpa [generateTextWithRetry, Nat.sub_self] using this
  · intro eM hfail hM'
    have := retryAux_all_fail gen M M none eM (le_refl M) hM
      (fun i hi1 hi2 => hfail i (by omega) hi2) hM'
    simpa [generateTextWithRetry] using this

/-- Witness for `c3_retry_behavior`: the flaky collaborator at concrete
budget 3. -/
theorem c3_retry_behavior_witness :
    generateTextWithRetry c3FlakyGen false 3 = (Except.ok "recovered", 3) :=
  (c3_retry_behavior c3FlakyGen 3 (by decide)).1 3 "recovered" (by decide)
    (by decide)
    (by intro i h1 h2
        interval_cases i <;> exact ⟨"boom", rfl⟩)
    rfl

/-! ## Raw generation call (gemini.go `GenerateText`)

The genai client response is modeled as `Except String (Option GenResponse)`:
an API error, a nil response, or a response carrying `resp.Text()` and the
candidate list.  A candidate's non-nil `*genai.Content` pointer is carried as
the body of its struct printout; `fmt.Sprintf("%v", ptr)` renders it as
`&{...}` (Go's verb `%v` on a pointer to struct), which is inherently
non-empty. -/

/-- One entry of `resp.Candidates`: `content = none` models a nil
`candidate.Content` pointer, `some body` a non-nil pointer whose struct
prints as `body` inside `&{...}`. -/
structure GenCandidate where
  content : Option String
deriving DecidableEq, Repr

/-- A non-nil genai response: `text` is `resp.Text()`, `candidates` the
candidate slice (empty list models both nil and empty). -/
structure GenResponse where
  text : String
  candidates : List GenCandidate
deriving DecidableEq, Repr

/-- `fmt.Sprintf("%v", candidate.Content)` for a non-nil pointer: Go prints
`&{fields...}`. -/
def sprintfContent (body : String) : String := "&\x7b" ++ body ++ "\x7d"

/-- `strings.Join(parts, "\n")`. -/
def joinNewline : List String → String
  | [] => ""
  | [s] => s
  | s :: rest => s ++ "\n" ++ joinNewline rest

/-- `GenerateText` (gemini.go): API error and nil response become errors; an
empty `resp.Text()` falls back to joining the `%v` printouts of non-nil
candidate contents, erroring only when none exists. -/
def generateText (resp : Except String (Option GenResponse)) :
    Except String String :=
  match resp with
  | Except.error e => Except.error ("failed to generate text: " ++ e)
  | Except.ok none => Except.error ("no response generated (nil response)")
  | Except.ok (some r) =>
      if r.text = "" then
        let textParts := (r.candidates.filterMap (fun c => c.content)).map sprintfContent
        if textParts = [] then Except.error ("no text content in response")
        else Except.ok (joinNewline textParts)
      else Except.ok r.text

theorem joinNewline_head_length :
    ∀ (ps : List String) (p : String), p.length ≤ (joinNewline (p :: ps)).length := by
  intro ps
  induction ps with
  | nil => intro p; simp [joinNewline]
  | cons q qs ih =>
      intro p
      simp only [joinNewline, String.length_append]
      omega

theorem retryAux_ok_from_gen (gen : Nat → Except String String) (d : Bool)
    (M : Nat) :
    ∀ r le s, (retryAux gen d M r le).1 = Except.ok s →
      ∃ i, gen i = Except.ok s := by
  intro r
  induction r with
  | zero => intro le s h; simp [retryAux] at h
  | succ r ih =>
      intro le s h
      simp only [retryAux] at h
      cases hg : gen (M - r) with
      | ok s' =>
          rw [hg] at h
          simp at h
          exact ⟨M - r, by rw [hg, h]⟩
      | error e =>
          rw [hg] at h
          cases d with
          | true => simp at h
          | false =>
              simp only [Bool.false_eq_true, if_false] at h
              exact ih (some e) s h

/-- Claim C10: `GenerateText` never returns an empty string together with a
nil error — every successful return is non-empty (a non-empty `resp.Text()`,
or a newline-join of `&{...}` printouts of non-nil candidate contents) — and
consequently a `GenerateTextWithRetry` backed by this client can never
produce `ok ""`, so the evaluator's empty-response zero-score fallback branch
(`response == ""` in `evaluateCV` / `evaluateProject`) is unreachable when
generation is backed by this client. -/
theorem c10_generateText_never_empty_success :
    (∀ (resp : Except String (Option GenResponse)) (s : String),
      generateText resp = Except.ok s → s ≠ "") ∧
    (∀ (resps : Nat → Except String (Option GenResponse)) (d : Bool) (M : Nat),
      (generateTextWithRetry (fun i => generateText (resps i)) d M).1 ≠
        Except.ok "") := by
  have hbase : ∀ (resp : Except String (Option GenResponse)) (s : String),
      generateText resp = Except.ok s → s ≠ "" := by
    intro resp s h
    match resp with
    | Except.error e => simp [generateText] at h
    | Except.ok none => simp [generateText] at h
    | Except.ok (some r) =>
        simp only [generateText] at h
        by_cases ht : r.text = ""
        · rw [if_pos ht] at h
          cases hparts : (r.candidates.filterMap (fun c => c.content)).map sprintfContent with
          | nil => rw [hparts] at h; simp at h
          | cons p ps =>
              rw [hparts] at h
              simp at h
              have hp : p.length > 0 := by
                have : p ∈ (r.candidates.filterMap (fun c => c.content)).map sprintfContent := by
                  rw [hparts]; exact List.mem_cons_self p ps
                obtain ⟨b, _, hb⟩ := List.mem_map.mp this
                rw [← hb]
                simp only [sprintfContent, String.length_append]
                have h2 : ("&\x7b").length = 2 := rfl
                omega
              have hlen := joinNewline_head_length ps p
              intro hs
              rw [← h] at hs
              have : (joinNewline (p :: ps)).length = 0 := by rw [hs]; rfl
              omega
        · rw [if_neg ht] at h
          simp at h
          rw [← h]; exact ht
  refine ⟨hbase, ?_⟩
  intro resps d M h
  obtain ⟨i, hi⟩ := retryAux_ok_from_gen (fun i => generateText (resps i)) d M M none "" h
  exact hbase (resps i) "" hi rfl

/-- Witness for `c10_generateText_never_empty_success`: a concrete response
with text "hello" yields a non-empty success. -/
theorem c10_generateText_never_empty_success_witness : "hello" ≠ "" :=
  c10_generateText_never_empty_success.1
    (Except.ok (some { text := "hello", candidates := [] })) "hello" rfl

/-! ## Text chunker (internal/services/chuncker.go)

Strings are `List Char` here (one char = one byte on the ASCII fragment, so
Go's `len`, `utf8.RuneCountInString` and rune slicing all coincide with list
length and `List.drop`).  The two nested Go loops (paragraphs, and sentences
inside an over-long paragraph) thread the same `(chunks, currentChunk)` state
through an identical body that differs only in the separator (" " for
sentences, "\n\n" for paragraphs) and in the sentence/paragraph origin of the
unit, so they are embedded as a single fold over the flattened unit list
`unitsOf`, each unit tagged `true` for sentence mode and `false` for
paragraph mode. -/

/-- Whitespace as trimmed by `strings.TrimSpace` (ASCII fragment of
`unicode.IsSpace`). -/
def goSpace (c : Char) : Bool :=
  c = ' ' || c = '\t' || c = '\n' || c = '\r' ||
    c = Char.ofNat 11 || c = Char.ofNat 12

/-- `strings.TrimSpace`: drop whitespace from both ends. -/
def trimChars (cs : List Char) : List Char :=
  ((cs.dropWhile goSpace).reverse.dropWhile goSpace).reverse

/-- `strings.Split(text, "\n\n")`: fields between non-overlapping leftmost
occurrences of the two-character separator. -/
def splitOnPP : List Char → List (List Char)
  | '\n' :: '\n' :: rest => [] :: splitOnPP rest
  | c :: rest =>
      match splitOnPP rest with
      | [] => [[c]]
      | h :: t => (c :: h) :: t
  | [] => [[]]

/-- `strings.FieldsFunc` on the sentence delimiters `.`, `!`, `?`: split at
every delimiter character (empty fields are filtered by the caller, matching
`FieldsFunc`'s omission of empty fields). -/
def splitDelims : List Char → List (List Char)
  | [] => [[]]
  | c :: rest =>
      if c = '.' || c = '!' || c = '?' then [] :: splitDelims rest
      else
        match splitDelims rest with
        | [] => [[c]]
        | h :: t => (c :: h) :: t

/-- `splitIntoSentences` (chuncker.go): split on `.`/`!`/`?`, trim each
piece, keep the non-empty ones. -/
def splitIntoSentences (text : List Char) : List (List Char) :=
  ((splitDelims text).map trimChars).filter (fun s => ¬ s.isEmpty)

/-- `getLastNChars` (chuncker.go): the last `n` runes of `text`, all of it
when it is no longer than `n`, empty for `n ≤ 0`. -/
def getLastNChars (text : List Char) (n : Int) : List Char :=
  if n ≤ 0 then []
  else if (text.length : Int) ≤ n then text
  else text.drop (text.length - n.toNat)

/-- The separator written between units: a space in sentence mode, a blank
line in paragraph mode. -/
def sepOf (sentenceMode : Bool) : List Char :=
  if sentenceMode then [' '] else ['\n', '\n']

/-- Appending one unit to the running buffer: a separator is written first
iff the buffer is non-empty (`currentChunk.Len() > 0`). -/
def appendUnit (cur : List Char) (m : Bool) (u : List Char) : List Char :=
  if 0 < cur.length then cur ++ sepOf m ++ u else u

/-- The overlap seed written into a freshly reset buffer after closing a
chunk: the last `overlap` characters of the just-closed chunk followed by one
separator, or nothing when `overlap = 0` (the `len(chunks) > 0` guard in the
source is vacuous there, the closed chunk was just appended). -/
def seedOf (overlap : Nat) (prevChunk : List Char) (m : Bool) : List Char :=
  if 0 < overlap then
    if getLastNChars prevChunk (overlap : Int) = [] then []
    else getLastNChars prevChunk (overlap : Int) ++ sepOf m
  else []

/-- One iteration of the Go loop body for one unit: when writing the unit
(plus its separator) would exceed `maxSize` and the buffer is non-empty, the
buffer is closed into the chunk list and reseeded with the overlap; then the
unit is appended.  The length check adds `1` in sentence mode and `2` in
paragraph mode, exactly `(sepOf m).length`. -/
def chunkStep (maxSize overlap : Nat) (acc : List (List Char) × List Char)
    (unit : Bool × List Char) : List (List Char) × List Char :=
  if maxSize < acc.2.length + unit.2.length + (sepOf unit.1).length ∧ 0 < acc.2.length then
    (acc.1 ++ [acc.2], appendUnit (seedOf overlap acc.2 unit.1) unit.1 unit.2)
  else
    (acc.1, appendUnit acc.2 unit.1 unit.2)

/-- `maxChunkSize <= 0` defaults to 1000. -/
def normMaxSize (maxChunkSize : Int) : Nat :=
  if maxChunkSize ≤ 0 then 1000 else maxChunkSize.toNat

/-- Negative `overlap` defaults to 0; `overlap >= maxChunkSize` (after the
max-size default) is clamped to `maxChunkSize / 4`. -/
def normOverlap (maxChunkSize overlap : Int) : Nat :=
  let ms := normMaxSize maxChunkSize
  let ov : Nat := if overlap < 0 then 0 else overlap.toNat
  if ms ≤ ov then ms / 4 else ov

/-- The flattened unit sequence the Go loops iterate over: paragraphs are
trimmed and empty ones skipped; a paragraph longer than `maxSize` runes
contributes its sentences (tagged `true`), any other paragraph contributes
itself (tagged `false`). -/
def unitsOf (text : List Char) (maxSize : Nat) : List (Bool × List Char) :=
  (splitOnPP text).flatMap (fun para =>
    if (trimChars para).isEmpty then []
    else if maxSize < (trimChars para).length then
      (splitIntoSentences (trimChars para)).map (fun s => (true, s))
    else [(false, trimChars para)])

/-- `ChunkText` (chuncker.go): normalize the budgets, fold the loop body over
all units, and append the final non-empty buffer. -/
def chunkFold (text : List Char) (ms ov : Nat) : List (List Char) × List Char :=
  (unitsOf text ms).foldl (chunkStep ms ov) ([], [])

def chunkText (text : List Char) (maxChunkSize overlap : Int) :
    List (List Char) :=
  if 0 < (chunkFold text (normMaxSize maxChunkSize) (normOverlap maxChunkSize overlap)).2.length
  then (chunkFold text (normMaxSize maxChunkSize) (normOverlap maxChunkSize overlap)).1 ++
    [(chunkFold text (normMaxSize maxChunkSize) (normOverlap maxChunkSize overlap)).2]
  else (chunkFold text (normMaxSize maxChunkSize) (normOverlap maxChunkSize overlap)).1

theorem getLastNChars_length_le (cs : List Char) (ov : Nat) :
    (getLastNChars cs (ov : Int)).length ≤ ov := by
  unfold getLastNChars
  split
  · simp
  · split
    · rename_i h1 h2
      have : (cs.length : Int) ≤ (ov : Int) := h2
      exact_mod_cast this
    · simp only [List.length_drop]
      omega

theorem sepOf_length_le (m : Bool) : (sepOf m).length ≤ 2 := by
  cases m <;> simp [sepOf]

theorem seedOf_length_le (ov : Nat) (prev : List Char) (m : Bool) :
    (seedOf ov prev m).length ≤ ov + 2 := by
  unfold seedOf
  split
  · split
    · simp
    · simp only [List.length_append]
      have h1 := getLastNChars_length_le prev ov
      have h2 := sepOf_length_le m
      omega
  · simp

theorem appendUnit_length_le (cur : List Char) (m : Bool) (u : List Char) :
    (appendUnit cur m u).length ≤ cur.length + 2 + u.length := by
  unfold appendUnit
  split
  · simp only [List.length_append]
    have := sepOf_length_le m
    omega
  · omega

theorem chunkFold_length_le (ms ov : Nat) :
    ∀ (us : List (Bool × List Char)) (acc : List (List Char) × List Char),
      (∀ u ∈ us, u.2.length + ov + 4 ≤ ms) →
      (∀ c ∈ acc.1, c.length ≤ ms) → acc.2.length ≤ ms →
      (∀ c ∈ (us.foldl (chunkStep ms ov) acc).1, c.length ≤ ms) ∧
        (us.foldl (chunkStep ms ov) acc).2.length ≤ ms := by
  intro us
  induction us with
  | nil => intro acc _ h1 h2; exact ⟨h1, h2⟩
  | cons u us ih =>
      intro acc hu h1 h2
      have huu : u.2.length + ov + 4 ≤ ms := hu u (List.mem_cons_self u us)
      have hrest : ∀ v ∈ us, v.2.length + ov + 4 ≤ ms :=
        fun v hv => hu v (List.mem_cons_of_mem u hv)
      simp only [List.foldl_cons]
      apply ih (chunkStep ms ov acc u) hrest
      · intro c hc
        unfold chunkStep at hc
        split at hc
        · rcases List.mem_append.mp hc with h | h
          · exact h1 c h
          · rw [List.mem_singleton.mp h]; exact h2
        · exact h1 c hc
      · unfold chunkStep
        split
        · rename_i hcl
          have hs := seedOf_length_le ov acc.2 u.1
          have ha := appendUnit_length_le (seedOf ov acc.2 u.1) u.1 u.2
          dsimp only
          omega
        · rename_i hcl
          rw [Decidable.not_and_iff_or_not] at hcl
          unfold appendUnit
          dsimp only
          split
          · rename_i hpos
            rcases hcl with h | h
            · push_neg at h
              simp only [List.length_append]
              have := sepOf_length_le u.1
              have hsep : 1 ≤ (sepOf u.1).length := by cases u.1 <;> simp [sepOf]
              omega
            · omega
          · omega

/-- Claim C7, amended: every chunk returned by `ChunkText` — including the
last — has at most `maxSize` characters, provided every unit (trimmed
paragraph, or trimmed sentence of an over-long paragraph) fits in the budget
left after an overlap seed and two separators, i.e.
`unit.length + overlap + 4 ≤ maxSize` with the normalized budgets.  Without
that proviso the bound fails for a non-last chunk (see the counterexample):
a unit longer than `maxSize` is written into a single buffer unsplit, and the
buffer is only closed when the NEXT unit arrives, so the oversized chunk is
not the last one. -/
theorem c7_chunk_size_bound (text : List Char) (maxChunkSize overlap : Int)
    (h : ∀ u ∈ unitsOf text (normMaxSize maxChunkSize),
      u.2.length + normOverlap maxChunkSize overlap + 4 ≤ normMaxSize maxChunkSize) :
    ∀ c ∈ chunkText text maxChunkSize overlap, c.length ≤ normMaxSize maxChunkSize := by
  intro c hc
  unfold chunkText at hc
  have hfold := chunkFold_length_le (normMaxSize maxChunkSize)
    (normOverlap maxChunkSize overlap) (unitsOf text (normMaxSize maxChunkSize))
    ([], []) h (by simp) (by simp)
  rw [show (unitsOf text (normMaxSize maxChunkSize)).foldl
      (chunkStep (normMaxSize maxChunkSize) (normOverlap maxChunkSize overlap)) ([], []) =
      chunkFold text (normMaxSize maxChunkSize) (normOverlap maxChunkSize overlap) from rfl]
    at hfold
  split at hc
  · rcases List.mem_append.mp hc with hmem | hmem
    · exact hfold.1 c hmem
    · rw [List.mem_singleton.mp hmem]; exact hfold.2
  · exact hfold.1 c hc

/-- Claim C7, counterexample: for the input text "aaaaaaaaaa.bb" with
`maxSize = 5`, `overlap = 0`, `ChunkText` returns two chunks whose first
(non-last) chunk has 10 > 5 characters: the 10-character sentence is longer
than `maxSize`, is buffered whole, and is closed only when the next sentence
arrives. -/
theorem c7_counterexample :
    (chunkText "aaaaaaaaaa.bb".toList 5 0).length = 2 ∧
      normMaxSize 5 < ((chunkText "aaaaaaaaaa.bb".toList 5 0).getD 0 []).length := by
  constructor
  · decide
  · decide

/-- Witness for `c7_chunk_size_bound` at a concrete two-paragraph text whose
units all satisfy the fitting hypothesis. -/
theorem c7_chunk_size_bound_witness :
    ((chunkText "aa\n\nbb".toList 1000 10).getD 0 []).length ≤ normMaxSize 1000 :=
  c7_chunk_size_bound "aa\n\nbb".toList 1000 10 (by decide)
    ((chunkText "aa\n\nbb".toList 1000 10).getD 0 []) (by decide)

/-! ### Chunk reconstruction (claim C6)

A chunk produced by `ChunkText` is exactly an overlap seed (drawn from the
tail of the previous chunk) followed by a contiguous segment of the unit
sequence, rendered with the in-chunk separators.  `chunksOfSegs` rebuilds the
chunk list from a partition of the units into segments; the reconstruction
theorem exhibits such a partition whose flattening is the whole unit sequence
in original order — every unit appears exactly once across all chunks, and
the only duplicated characters are the seeds. -/

/-- Render one chunk: start from the seed and append each unit of the
segment with `appendUnit` (exactly the buffer writes of the loop body). -/
def renderSeg (seed : List Char) (seg : List (Bool × List Char)) : List Char :=
  seg.foldl (fun cur u => appendUnit cur u.1 u.2) seed

/-- The seed of a chunk: for a non-first chunk (`prev = some p`) it is the
overlap tail of the previous chunk `p` plus the separator of the segment's
first unit (the unit whose arrival closed the previous chunk); the first
chunk has no seed. -/
def segSeed (overlap : Nat) (prev : Option (List Char))
    (seg : List (Bool × List Char)) : List Char :=
  match prev, seg with
  | some p, u :: _ => seedOf overlap p u.1
  | _, _ => []

/-- Rebuild the chunk list from a segment partition, chaining each chunk as
the `prev` of the next. -/
def chunksOfSegs (overlap : Nat) :
    Option (List Char) → List (List (Bool × List Char)) → List (List Char)
  | _, [] => []
  | prev, seg :: rest =>
      renderSeg (segSeed overlap prev seg) seg ::
        chunksOfSegs overlap (some (renderSeg (segSeed overlap prev seg) seg)) rest

/-- The previous-chunk reference after emitting the chunks `cs` on top of an
earlier `prev`. -/
def lastPrev (prev : Option (List Char)) (cs : List (List Char)) :
    Option (List Char) :=
  match cs.getLast? with
  | some c => some c
  | none => prev

/-- The fold state corresponding to a partition: the chunks of the closed
segments, and the buffer holding the current segment rendered on its seed. -/
def stateOf (ov : Nat) (segs : List (List (Bool × List Char)))
    (curseg : List (Bool × List Char)) : List (List Char) × List Char :=
  (chunksOfSegs ov none segs,
    renderSeg (segSeed ov (chunksOfSegs ov none segs).getLast? curseg) curseg)

/-- Invariant tying a partition to a reachable fold state: closed segments
are non-empty, all units are non-empty, and the current segment can be empty
only before the first chunk exists. -/
def segInv (segs : List (List (Bool × List Char)))
    (curseg : List (Bool × List Char)) : Prop :=
  (∀ sg ∈ segs, sg ≠ []) ∧ (∀ u ∈ curseg, u.2 ≠ []) ∧
    (∀ sg ∈ segs, ∀ u ∈ sg, u.2 ≠ []) ∧ (curseg = [] → segs = [])

theorem renderSeg_snoc (seed : List Char) (seg : List (Bool × List Char))
    (u : Bool × List Char) :
    renderSeg seed (seg ++ [u]) = appendUnit (renderSeg seed seg) u.1 u.2 := by
  simp [renderSeg, List.foldl_append]

theorem renderSeg_pos_of_pos (sg : List (Bool × List Char)) :
    ∀ cur : List Char, 0 < cur.length → 0 < (renderSeg cur sg).length := by
  induction sg with
  | nil => intro cur h; exact h
  | cons u us ih =>
      intro cur h
      show 0 < (renderSeg (appendUnit cur u.1 u.2) us).length
      apply ih
      unfold appendUnit
      rw [if_pos h]
      simp only [List.length_append]
      omega

theorem renderSeg_cons_pos (seed : List Char) (u : Bool × List Char)
    (sg : List (Bool × List Char)) (hu : u.2 ≠ []) :
    0 < (renderSeg seed (u :: sg)).length := by
  show 0 < (renderSeg (appendUnit seed u.1 u.2) sg).length
  apply renderSeg_pos_of_pos
  unfold appendUnit
  have hu' : 0 < u.2.length := List.length_pos.mpr hu
  split
  · simp only [List.length_append]; omega
  · exact hu'

theorem lastPrev_cons (prev : Option (List Char)) (c : List Char)
    (cs : List (List Char)) : lastPrev prev (c :: cs) = lastPrev (some c) cs := by
  cases cs with
  | nil => simp [lastPrev]
  | cons d ds =>
      simp only [lastPrev, List.getLast?_cons_cons]
      cases h : (d :: ds).getLast? with
      | none => simp at h
      | some x => rfl

theorem chunksOfSegs_snoc (ov : Nat) :
    ∀ (segs : List (List (Bool × List Char))) (prev : Option (List Char))
      (sg : List (Bool × List Char)),
      chunksOfSegs ov prev (segs ++ [sg]) =
        chunksOfSegs ov prev segs ++
          [renderSeg (segSeed ov (lastPrev prev (chunksOfSegs ov prev segs)) sg) sg] := by
  intro segs
  induction segs with
  | nil => intro prev sg; simp [chunksOfSegs, lastPrev]
  | cons s ss ih =>
      intro prev sg
      simp only [List.cons_append, chunksOfSegs, List.append_eq]
      rw [ih, lastPrev_cons]

theorem segSeed_extend (ov : Nat) (prev : Option (List Char))
    (curseg : List (Bool × List Char)) (u : Bool × List Char)
    (h : curseg = [] → prev = none) :
    segSeed ov prev (curseg ++ [u]) = segSeed ov prev curseg := by
  cases curseg with
  | nil => rw [h rfl]; rfl
  | cons v vs => cases prev <;> rfl

theorem lastPrev_none (cs : List (List Char)) : lastPrev none cs = cs.getLast? := by
  unfold lastPrev
  cases cs.getLast? <;> rfl

theorem segSeed_nil (ov : Nat) (prev : Option (List Char)) :
    segSeed ov prev [] = [] := by
  cases prev <;> rfl

theorem renderSeg_nil (seed : List Char) : renderSeg seed [] = seed := rfl

theorem chunkStep_segments (ms ov : Nat) (segs : List (List (Bool × List Char)))
    (curseg : List (Bool × List Char)) (u : Bool × List Char)
    (hinv : segInv segs curseg) (hu : u.2 ≠ []) :
    ∃ segs' curseg', segInv segs' curseg' ∧
      segs'.flatten ++ curseg' = (segs.flatten ++ curseg) ++ [u] ∧
      chunkStep ms ov (stateOf ov segs curseg) u = stateOf ov segs' curseg' := by
  obtain ⟨hsegs, hcur, hsegsu, hnil⟩ := hinv
  by_cases hc : ms < (stateOf ov segs curseg).2.length + u.2.length + (sepOf u.1).length ∧
      0 < (stateOf ov segs curseg).2.length
  · have hcsne : curseg ≠ [] := by
      intro he
      have h0 := hnil he
      rw [he, h0] at hc
      have : (stateOf ov ([] : List (List (Bool × List Char))) []).2 = [] := rfl
      rw [this] at hc
      simp at hc
    refine ⟨segs ++ [curseg], [u], ⟨?_, ?_, ?_, ?_⟩, ?_, ?_⟩
    · intro sg hsg
      rcases List.mem_append.mp hsg with h | h
      · exact hsegs sg h
      · rw [List.mem_singleton.mp h]; exact hcsne
    · intro v hv
      rw [List.mem_singleton.mp hv]; exact hu
    · intro sg hsg
      rcases List.mem_append.mp hsg with h | h
      · exact hsegsu sg h
      · rw [List.mem_singleton.mp h]; exact hcur
    · intro h; simp at h
    · simp [List.flatten_append]
    · unfold chunkStep
      rw [if_pos hc]
      have h1 : chunksOfSegs ov none (segs ++ [curseg]) =
          chunksOfSegs ov none segs ++ [(stateOf ov segs curseg).2] := by
        rw [chunksOfSegs_snoc, lastPrev_none]
        rfl
      unfold stateOf
      rw [h1]
      rw [show (chunksOfSegs ov none segs ++ [(stateOf ov segs curseg).2]).getLast? =
        some (stateOf ov segs curseg).2 from List.getLast?_concat _]
      rfl
  · refine ⟨segs, curseg ++ [u], ⟨hsegs, ?_, hsegsu, ?_⟩, by simp, ?_⟩
    · intro v hv
      rcases List.mem_append.mp hv with h | h
      · exact hcur v h
      · rw [List.mem_singleton.mp h]; exact hu
    · intro h; simp at h
    · unfold chunkStep
      rw [if_neg hc]
      have hseed : segSeed ov (chunksOfSegs ov none segs).getLast? (curseg ++ [u]) =
          segSeed ov (chunksOfSegs ov none segs).getLast? curseg := by
        apply segSeed_extend
        intro he
        rw [hnil he]
        rfl
      unfold stateOf
      rw [renderSeg_snoc, hseed]

theorem chunkFold_segments (ms ov : Nat) :
    ∀ (us : List (Bool × List Char)) (segs : List (List (Bool × List Char)))
      (curseg : List (Bool × List Char)),
      (∀ u ∈ us, u.2 ≠ []) → segInv segs curseg →
      ∃ segs' curseg', segInv segs' curseg' ∧
        segs'.flatten ++ curseg' = (segs.flatten ++ curseg) ++ us ∧
        us.foldl (chunkStep ms ov) (stateOf ov segs curseg) = stateOf ov segs' curseg' := by
  intro us
  induction us with
  | nil => intro segs curseg _ hinv; exact ⟨segs, curseg, hinv, by simp, rfl⟩
  | cons u us ih =>
      intro segs curseg hu hinv
      obtain ⟨segs1, curseg1, hinv1, hflat1, hstep⟩ :=
        chunkStep_segments ms ov segs curseg u hinv (hu u (List.mem_cons_self u us))
      obtain ⟨segs2, curseg2, hinv2, hflat2, hfold⟩ :=
        ih segs1 curseg1 (fun v hv => hu v (List.mem_cons_of_mem u hv)) hinv1
      refine ⟨segs2, curseg2, hinv2, ?_, ?_⟩
      · rw [hflat2, hflat1]
        simp
      · simp only [List.foldl_cons]
        rw [hstep, hfold]

theorem unitsOf_ne_nil (text : List Char) (ms : Nat) :
    ∀ u ∈ unitsOf text ms, u.2 ≠ [] := by
  intro u hu
  unfold unitsOf at hu
  rw [List.mem_flatMap] at hu
  obtain ⟨para, _, hm⟩ := hu
  split at hm
  · simp at hm
  · rename_i hne
    split at hm
    · rw [List.mem_map] at hm
      obtain ⟨s, hs, hsu⟩ := hm
      unfold splitIntoSentences at hs
      rw [List.mem_filter] at hs
      rw [← hsu]
      simpa using hs.2
    · rw [List.mem_singleton.mp hm]
      simpa using hne

/-- Claim C6: the chunks returned by `ChunkText` reconstruct the unit
sequence of the input (trimmed paragraphs, or trimmed sentences of over-long
paragraphs) modulo the deliberate overlap duplication: there is a partition
of the unit sequence into contiguous non-empty segments, in original order
and with every unit appearing exactly once (`segs.flatten` is the whole unit
sequence), such that the i-th chunk is exactly its segment rendered with the
in-chunk separators on top of the overlap seed drawn from the tail of chunk
i-1 — so units appear in original order and no unit is duplicated outside
the deliberate overlap region. -/
theorem c6_chunks_partition_units (text : List Char) (maxChunkSize overlap : Int) :
    ∃ segs : List (List (Bool × List Char)),
      segs.flatten = unitsOf text (normMaxSize maxChunkSize) ∧
      (∀ sg ∈ segs, sg ≠ []) ∧
      chunkText text maxChunkSize overlap =
        chunksOfSegs (normOverlap maxChunkSize overlap) none segs := by
  obtain ⟨segs', curseg', hinv, hflat, hfold⟩ :=
    chunkFold_segments (normMaxSize maxChunkSize) (normOverlap maxChunkSize overlap)
      (unitsOf text (normMaxSize maxChunkSize)) [] []
      (unitsOf_ne_nil text (normMaxSize maxChunkSize))
      ⟨by simp, by simp, by simp, by simp⟩
  have hstate : chunkFold text (normMaxSize maxChunkSize)
      (normOverlap maxChunkSize overlap) =
      stateOf (normOverlap maxChunkSize overlap) segs' curseg' := by
    unfold chunkFold
    rw [← hfold]
    rfl
  obtain ⟨hsegs', hcur', hsegsu', hnil'⟩ := hinv
  cases hcs : curseg' with
  | nil =>
      have h0 := hnil' hcs
      refine ⟨segs', ?_, hsegs', ?_⟩
      · rw [hcs] at hflat; simpa using hflat
      · unfold chunkText
        rw [hstate, hcs, h0]
        have hz : (stateOf (normOverlap maxChunkSize overlap)
            ([] : List (List (Bool × List Char))) []).2 = [] := rfl
        rw [hz]
        simp [stateOf, chunksOfSegs]
  | cons h t =>
      have hht : h.2 ≠ [] := hcur' h (by rw [hcs]; exact List.mem_cons_self h t)
      have hpos : 0 < (stateOf (normOverlap maxChunkSize overlap) segs' curseg').2.length := by
        rw [hcs]
        exact renderSeg_cons_pos _ h t hht
      refine ⟨segs' ++ [curseg'], ?_, ?_, ?_⟩
      · rw [List.flatten_append]; simpa using hflat
      · intro sg hsg
        rcases List.mem_append.mp hsg with hm | hm
        · exact hsegs' sg hm
        · rw [List.mem_singleton.mp hm, hcs]; simp
      · unfold chunkText
        rw [hstate]
        rw [if_pos hpos]
        rw [chunksOfSegs_snoc, lastPrev_none]
        rfl

/-! ## Structured-response extraction (evaluator.go `extractJSON`)

Character-level scanning over `List Char`.  The brace, bracket and backtick
characters are named through their code points.  `strings.ReplaceAll` with an
empty replacement is embedded as a fuel-indexed left-to-right scan removing
non-overlapping leftmost occurrences of the pattern. -/

/-- The backtick character. -/
def btick : Char := Char.ofNat 96

/-- The opening brace character. -/
def lbrace : Char := Char.ofNat 123

/-- The closing brace character. -/
def rbrace : Char := Char.ofNat 125

/-- The opening bracket character. -/
def lbrack : Char := Char.ofNat 91

/-- The closing bracket character. -/
def rbrack : Char := Char.ofNat 93

/-- The pattern "```json". -/
def pat3json : List Char := [btick, btick, btick, 'j', 's', 'o', 'n']

/-- The pattern "```". -/
def pat3 : List Char := [btick, btick, btick]

/-- Left-to-right removal of non-overlapping leftmost occurrences of `pat`,
with fuel bounding the scan length (the callers pass the list length, which
always suffices since each step consumes at least one character). -/
def stripAux (pat : List Char) : Nat → List Char → List Char
  | _, [] => []
  | 0, l => l
  | fuel + 1, c :: rest =>
      if List.take pat.length (c :: rest) = pat then
        stripAux pat fuel (List.drop pat.length (c :: rest))
      else c :: stripAux pat fuel rest

/-- `strings.ReplaceAll(s, pat, "")`. -/
def replaceAll (pat : List Char) (cs : List Char) : List Char :=
  stripAux pat cs.length cs

/-- `strings.Index(s, c)` for a single character, as an optional index
(`none` models `-1`). -/
def idxOf (c : Char) : List Char → Option Nat
  | [] => none
  | x :: xs => if x = c then some 0 else (idxOf c xs).map (· + 1)

/-- `strings.LastIndex(s, c)` for a single character. -/
def lastIdxOf (c : Char) (cs : List Char) : Option Nat :=
  (idxOf c cs.reverse).map (fun i => cs.length - 1 - i)

/-- The array fallback of `extractJSON`: slice from the first `[` to the
last `]` when that range is non-trivial, else return the text unchanged. -/
def extractArr (t : List Char) : List Char :=
  match idxOf lbrack t, lastIdxOf rbrack t with
  | some s, some e => if s < e then (t.drop s).take (e + 1 - s) else t
  | _, _ => t

/-- `extractJSON` (evaluator.go): strip the markdown fence markers "```json"
then "```", then slice from the first `{` to the last `}` when that range is
non-trivial, preferring the object slice over the array slice, and falling
back to the stripped text. -/
def extractJSON (text : List Char) : List Char :=
  match idxOf lbrace (replaceAll pat3 (replaceAll pat3json text)),
      lastIdxOf rbrace (replaceAll pat3 (replaceAll pat3json text)) with
  | some s, some e =>
      if s < e then
        ((replaceAll pat3 (replaceAll pat3json text)).drop s).take (e + 1 - s)
      else extractArr (replaceAll pat3 (replaceAll pat3json text))
  | _, _ => extractArr (replaceAll pat3 (replaceAll pat3json text))

/-- Modelled from the spec: `wrap_in_markdown` (spec section 8, Extraction
property) — the payload inside a ```json fenced block with surrounding
prose. -/
def wrapInMarkdown (pre payload post : List Char) : List Char :=
  pre ++ (pat3json ++ ['\n']) ++ payload ++ ('\n' :: pat3) ++ post

theorem stripAux_fuel_irrel (pat : List Char) (hpat : pat ≠ []) :
    ∀ f1 f2 l, l.length ≤ f1 → l.length ≤ f2 →
      stripAux pat f1 l = stripAux pat f2 l := by
  have hplen : 0 < pat.length := List.length_pos.mpr hpat
  intro f1
  induction f1 with
  | zero =>
      intro f2 l h1 _
      have : l = [] := List.eq_nil_of_length_eq_zero (by omega)
      subst this
      cases f2 <;> rfl
  | succ f1 ih =>
      intro f2 l h1 h2
      cases l with
      | nil => cases f2 <;> rfl
      | cons c rest =>
          have hlen : (c :: rest).length = rest.length + 1 := rfl
          cases f2 with
          | zero => simp at h2
          | succ f2 =>
              show stripAux pat (f1 + 1) (c :: rest) = stripAux pat (f2 + 1) (c :: rest)
              unfold stripAux
              split
              · apply ih
                · simp only [List.length_drop]
                  simp at h1 ⊢
                  omega
                · simp only [List.length_drop]
                  simp at h2 ⊢
                  omega
              · rw [ih f2 rest (by simp at h1; omega) (by simp at h2; omega)]

theorem stripAux_nil (pat : List Char) (f : Nat) : stripAux pat f [] = [] := by
  cases f <;> rfl

theorem stripAux_succ_cons (pat : List Char) (f : Nat) (c : Char)
    (rest : List Char) :
    stripAux pat (f + 1) (c :: rest) =
      if List.take pat.length (c :: rest) = pat then
        stripAux pat f (List.drop pat.length (c :: rest))
      else c :: stripAux pat f rest := rfl

theorem replaceAll_nil (pat : List Char) : replaceAll pat [] = [] := rfl

theorem replaceAll_cons_match (pat : List Char) (hpat : pat ≠ []) (c : Char)
    (rest : List Char) (h : List.take pat.length (c :: rest) = pat) :
    replaceAll pat (c :: rest) = replaceAll pat (List.drop pat.length (c :: rest)) := by
  have hplen : 0 < pat.length := List.length_pos.mpr hpat
  unfold replaceAll
  simp only [List.length_cons]
  rw [stripAux_succ_cons, if_pos h]
  apply stripAux_fuel_irrel pat hpat
  · simp only [List.length_drop, List.length_cons]
    omega
  · exact le_refl _

theorem replaceAll_cons_nonmatch (pat : List Char) (c : Char)
    (rest : List Char) (h : ¬ List.take pat.length (c :: rest) = pat) :
    replaceAll pat (c :: rest) = c :: replaceAll pat rest := by
  unfold replaceAll
  simp only [List.length_cons]
  rw [stripAux_succ_cons, if_neg h]

theorem replaceAll_prefix_match (pat : List Char) (hpat : pat ≠ [])
    (z : List Char) : replaceAll pat (pat ++ z) = replaceAll pat z := by
  cases hp : pat with
  | nil => exact absurd hp hpat
  | cons p0 p' =>
      rw [← hp]
      have hc : pat ++ z = p0 :: (p' ++ z) := by rw [hp]; rfl
      rw [hc]
      rw [replaceAll_cons_match pat hpat p0 (p' ++ z)
        (by rw [← hc, List.take_left]),
        show List.drop pat.length (p0 :: (p' ++ z)) = z by rw [← hc, List.drop_left]]

theorem replaceAll_append_bt_free (pat : List Char) (p' : List Char)
    (hpat : pat = btick :: p') :
    ∀ xs ys, (∀ c ∈ xs, c ≠ btick) →
      replaceAll pat (xs ++ ys) = xs ++ replaceAll pat ys := by
  intro xs
  induction xs with
  | nil => intro ys _; rfl
  | cons x xs' ih =>
      intro ys hx
      have hxb : x ≠ btick := hx x (List.mem_cons_self x xs')
      have hne : ¬ List.take pat.length (x :: (xs' ++ ys)) = pat := by
        intro h
        rw [hpat] at h
        simp only [List.length_cons, List.take_succ_cons, List.cons.injEq] at h
        exact hxb h.1
      rw [show (x :: xs') ++ ys = x :: (xs' ++ ys) from rfl,
        replaceAll_cons_nonmatch pat x (xs' ++ ys) hne,
        ih ys (fun c hc => hx c (List.mem_cons_of_mem x hc)), List.cons_append]

theorem replaceAll_bt_free (pat : List Char) (p' : List Char)
    (hpat : pat = btick :: p') (xs : List Char)
    (hx : ∀ c ∈ xs, c ≠ btick) : replaceAll pat xs = xs := by
  have := replaceAll_append_bt_free pat p' hpat xs [] hx
  simpa [replaceAll_nil] using this

theorem idxOf_cons_self (c : Char) (l : List Char) : idxOf c (c :: l) = some 0 := by
  simp [idxOf]

theorem idxOf_cons_ne (c x : Char) (l : List Char) (h : ¬ x = c) :
    idxOf c (x :: l) = (idxOf c l).map (· + 1) := by
  rw [show idxOf c (x :: l) =
    if x = c then some 0 else (idxOf c l).map (· + 1) from rfl, if_neg h]

theorem idxOf_append_not_mem (c : Char) :
    ∀ xs ys, c ∉ xs →
      idxOf c (xs ++ ys) = (idxOf c ys).map (· + xs.length) := by
  intro xs
  induction xs with
  | nil =>
      intro ys _
      rw [List.nil_append]
      cases idxOf c ys <;> simp
  | cons x xs' ih =>
      intro ys hx
      have hxc : ¬ x = c := fun h => hx (h ▸ List.mem_cons_self x xs')
      rw [show (x :: xs') ++ ys = x :: (xs' ++ ys) from rfl,
        idxOf_cons_ne c x (xs' ++ ys) hxc,
        ih ys (fun h => hx (List.mem_cons_of_mem x h))]
      cases idxOf c ys with
      | none => rfl
      | some v => simp [List.length_cons]; omega

theorem mem_shape_ne_btick (pre j tail0 post : List Char)
    (hpre : ∀ c ∈ pre, c ≠ btick) (hj : ∀ c ∈ j, c ≠ btick)
    (hpost : ∀ c ∈ post, c ≠ btick) (ht : ∀ c ∈ tail0, c ∈ post) :
    ∀ c ∈ pre ++ ('\n' :: j) ++ '\n' :: tail0, c ≠ btick := by
  intro c hc
  simp only [List.mem_append, List.mem_cons] at hc
  rcases hc with (h | h | h) | h | h
  · exact hpre c h
  · rw [h]; decide
  · exact hj c h
  · rw [h]; decide
  · exact hpost c (ht c h)

theorem strip_wrapped (pre j post : List Char)
    (hpre : ∀ c ∈ pre, c ≠ btick) (hj : ∀ c ∈ j, c ≠ btick)
    (hpost : ∀ c ∈ post, c ≠ btick) :
    ∃ tail, (∀ c ∈ tail, c ∈ post) ∧
      replaceAll pat3 (replaceAll pat3json (wrapInMarkdown pre j post)) =
        pre ++ '\n' :: (j ++ '\n' :: tail) := by
  have hp7 : pat3json = btick :: [btick, btick, 'j', 's', 'o', 'n'] := rfl
  have hp3 : pat3 = btick :: [btick, btick] := rfl
  have hw : wrapInMarkdown pre j post =
      pre ++ (pat3json ++ ('\n' :: (j ++ ('\n' :: (pat3 ++ post))))) := by
    unfold wrapInMarkdown
    simp [List.append_assoc]
  have hnewline : ('\n' : Char) ≠ btick := by decide
  have hj' : ∀ c ∈ '\n' :: j, c ≠ btick := by
    intro c hc
    rcases List.mem_cons.mp hc with h | h
    · rw [h]; exact hnewline
    · exact hj c h
  have step1 : replaceAll pat3json (wrapInMarkdown pre j post) =
      pre ++ ('\n' :: j) ++ '\n' :: replaceAll pat3json (pat3 ++ post) := by
    rw [hw, replaceAll_append_bt_free pat3json _ hp7 pre _ hpre,
      replaceAll_prefix_match pat3json (by rw [hp7]; simp)]
    rw [show ('\n' :: (j ++ ('\n' :: (pat3 ++ post)))) =
      ('\n' :: j) ++ ('\n' :: (pat3 ++ post)) from by simp]
    rw [replaceAll_append_bt_free pat3json _ hp7 ('\n' :: j) _ hj']
    rw [show ('\n' :: (pat3 ++ post)) = ['\n'] ++ (pat3 ++ post) from rfl]
    rw [replaceAll_append_bt_free pat3json _ hp7 ['\n'] _
      (by intro c hc; rw [List.mem_singleton.mp hc]; exact hnewline)]
    simp [List.append_assoc]
  by_cases hm : post.take 4 = ['j', 's', 'o', 'n']
  · -- the "```json" strip also eats the "json" prefix of the trailing prose
    refine ⟨post.drop 4, fun c hc => List.mem_of_mem_drop hc, ?_⟩
    have hinner : replaceAll pat3json (pat3 ++ post) = post.drop 4 := by
      rw [show pat3 ++ post = btick :: (btick :: btick :: post) from rfl]
      rw [replaceAll_cons_match pat3json (by rw [hp7]; simp) btick
        (btick :: btick :: post)
        (by rw [show List.take pat3json.length (btick :: (btick :: btick :: post)) =
              btick :: btick :: btick :: List.take 4 post from rfl, hm]
            rfl)]
      rw [show List.drop pat3json.length (btick :: (btick :: btick :: post)) =
        post.drop 4 from rfl]
      exact replaceAll_bt_free pat3json _ hp7 (post.drop 4)
        (fun c hc => hpost c (List.mem_of_mem_drop hc))
    rw [step1, hinner,
      replaceAll_bt_free pat3 _ hp3 _
        (mem_shape_ne_btick pre j (post.drop 4) post hpre hj hpost
          (fun c hc => List.mem_of_mem_drop hc))]
    simp [List.append_assoc]
  · refine ⟨post, fun _ hc => hc, ?_⟩
    have hne1 : ¬ List.take pat3json.length (btick :: (btick :: btick :: post)) =
        pat3json := by
      intro h
      rw [show List.take pat3json.length (btick :: (btick :: btick :: post)) =
        btick :: btick :: btick :: List.take 4 post from rfl, hp7] at h
      simp only [List.cons.injEq] at h
      exact hm (by simpa using h.2.2.2)
    have hne2 : ¬ List.take pat3json.length (btick :: (btick :: post)) =
        pat3json := by
      intro h
      rw [show List.take pat3json.length (btick :: (btick :: post)) =
        btick :: btick :: List.take 5 post from rfl, hp7] at h
      simp only [List.cons.injEq] at h
      have h5 : List.take 5 post = btick :: ['j', 's', 'o', 'n'] := by
        simpa using h.2.2
      have : btick ∈ post :=
        List.mem_of_mem_take (by rw [h5]; exact List.mem_cons_self _ _)
      exact hpost btick this rfl
    have hne3 : ¬ List.take pat3json.length (btick :: post) = pat3json := by
      intro h
      rw [show List.take pat3json.length (btick :: post) =
        btick :: List.take 6 post from rfl, hp7] at h
      simp only [List.cons.injEq] at h
      have h6 : List.take 6 post = btick :: [btick, 'j', 's', 'o', 'n'] := by
        simpa using h.2
      have : btick ∈ post :=
        List.mem_of_mem_take (by rw [h6]; exact List.mem_cons_self _ _)
      exact hpost btick this rfl
    have hinner : replaceAll pat3json (pat3 ++ post) = pat3 ++ post := by
      rw [show pat3 ++ post = btick :: (btick :: btick :: post) from rfl,
        replaceAll_cons_nonmatch pat3json btick (btick :: btick :: post) hne1,
        replaceAll_cons_nonmatch pat3json btick (btick :: post) hne2,
        replaceAll_cons_nonmatch pat3json btick post hne3,
        replaceAll_bt_free pat3json _ hp7 post hpost]
    rw [step1, hinner]
    rw [show pre ++ ('\n' :: j) ++ '\n' :: (pat3 ++ post) =
      (pre ++ ('\n' :: j) ++ ['\n']) ++ (pat3 ++ post) from by simp]
    rw [replaceAll_append_bt_free pat3 _ hp3 (pre ++ ('\n' :: j) ++ ['\n'])
      (pat3 ++ post)
      (by intro c hc
          apply mem_shape_ne_btick pre j [] post hpre hj hpost (by simp) c
          simpa using hc)]
    rw [replaceAll_prefix_match pat3 (by rw [hp3]; simp),
      replaceAll_bt_free pat3 _ hp3 post hpost]
    simp [List.append_assoc]

theorem extract_slice (t pre mid tail : List Char)
    (ht : replaceAll pat3 (replaceAll pat3json t) =
      pre ++ '\n' :: ((lbrace :: (mid ++ [rbrace])) ++ '\n' :: tail))
    (hpreL : lbrace ∉ pre) (htailR : rbrace ∉ tail) :
    extractJSON t = lbrace :: (mid ++ [rbrace]) := by
  have hidx : idxOf lbrace
      (pre ++ '\n' :: ((lbrace :: (mid ++ [rbrace])) ++ '\n' :: tail)) =
      some (pre.length + 1) := by
    rw [show pre ++ '\n' :: ((lbrace :: (mid ++ [rbrace])) ++ '\n' :: tail) =
      (pre ++ ['\n']) ++ (lbrace :: ((mid ++ [rbrace]) ++ '\n' :: tail)) from by simp]
    rw [idxOf_append_not_mem lbrace (pre ++ ['\n']) _
      (by intro hmem
          rcases List.mem_append.mp hmem with h | h
          · exact absurd h hpreL
          · exact absurd (List.mem_singleton.mp h) (by decide)),
      idxOf_cons_self]
    simp
  have hrev : (pre ++ '\n' :: ((lbrace :: (mid ++ [rbrace])) ++ '\n' :: tail)).reverse =
      (tail.reverse ++ ['\n']) ++
        (rbrace :: (mid.reverse ++ (lbrace :: ('\n' :: pre.reverse)))) := by
    simp
  have hlen : (pre ++ '\n' :: ((lbrace :: (mid ++ [rbrace])) ++ '\n' :: tail)).length =
      pre.length + mid.length + tail.length + 4 := by
    simp
    omega
  have hlast : lastIdxOf rbrace
      (pre ++ '\n' :: ((lbrace :: (mid ++ [rbrace])) ++ '\n' :: tail)) =
      some (pre.length + mid.length + 2) := by
    unfold lastIdxOf
    rw [hrev, idxOf_append_not_mem rbrace (tail.reverse ++ ['\n']) _
      (by intro hmem
          rcases List.mem_append.mp hmem with h | h
          · exact htailR (List.mem_reverse.mp h)
          · exact absurd (List.mem_singleton.mp h) (by decide)),
      idxOf_cons_self, hlen]
    simp
    omega
  unfold extractJSON
  rw [ht, hidx, hlast]
  dsimp only
  rw [if_pos (by omega)]
  rw [show pre ++ '\n' :: ((lbrace :: (mid ++ [rbrace])) ++ '\n' :: tail) =
    (pre ++ ['\n']) ++ ((lbrace :: (mid ++ [rbrace])) ++ '\n' :: tail) from by simp]
  rw [show pre.length + 1 = (pre ++ ['\n']).length from by simp, List.drop_left]
  rw [show pre.length + mid.length + 2 + 1 - (pre ++ ['\n']).length =
    (lbrace :: (mid ++ [rbrace])).length from by simp; omega]
  exact List.take_left _ _

theorem extract_bare (mid : List Char) (hmid : ∀ c ∈ mid, c ≠ btick) :
    extractJSON (lbrace :: (mid ++ [rbrace])) = lbrace :: (mid ++ [rbrace]) := by
  have hbt : ∀ c ∈ lbrace :: (mid ++ [rbrace]), c ≠ btick := by
    intro c hc
    simp only [List.mem_cons, List.mem_append, List.mem_singleton] at hc
    rcases hc with h | h | h | h
    · rw [h]; decide
    · exact hmid c h
    · rw [h]; decide
    · simp at h
  have hstrip : replaceAll pat3 (replaceAll pat3json (lbrace :: (mid ++ [rbrace]))) =
      lbrace :: (mid ++ [rbrace]) := by
    rw [replaceAll_bt_free pat3json _ rfl _ hbt, replaceAll_bt_free pat3 _ rfl _ hbt]
  have hlast : lastIdxOf rbrace (lbrace :: (mid ++ [rbrace])) =
      some (mid.length + 1) := by
    unfold lastIdxOf
    rw [show (lbrace :: (mid ++ [rbrace])).reverse =
      rbrace :: (mid.reverse ++ [lbrace]) from by simp, idxOf_cons_self]
    simp
  unfold extractJSON
  rw [hstrip, idxOf_cons_self, hlast]
  dsimp only
  rw [if_pos (by omega)]
  rw [show mid.length + 1 + 1 - 0 = (lbrace :: (mid ++ [rbrace])).length from by
    simp]
  rw [List.drop_zero, List.take_length]

/-- Claim C8, amended: extraction from the markdown-wrapped payload equals
extraction from the bare payload — and both equal the payload — provided the
payload and the surrounding prose contain no backtick (so fence-stripping
cannot corrupt them), the leading prose contains no opening brace and the
trailing prose contains no closing brace (so the first-`{` / last-`}` scan
stays on the payload's boundaries).  Without the brace restriction the
equation fails (see the counterexample); a payload containing ``` would also
be corrupted by the fence strip. -/
theorem c8_extract_wrapped_eq_bare (pre mid post : List Char)
    (hpre : ∀ c ∈ pre, c ≠ btick) (hmid : ∀ c ∈ mid, c ≠ btick)
    (hpost : ∀ c ∈ post, c ≠ btick)
    (hpreL : lbrace ∉ pre) (hpostR : rbrace ∉ post) :
    extractJSON (wrapInMarkdown pre (lbrace :: (mid ++ [rbrace])) post) =
        extractJSON (lbrace :: (mid ++ [rbrace])) ∧
      extractJSON (lbrace :: (mid ++ [rbrace])) = lbrace :: (mid ++ [rbrace]) := by
  have hj : ∀ c ∈ lbrace :: (mid ++ [rbrace]), c ≠ btick := by
    intro c hc
    simp only [List.mem_cons, List.mem_append, List.mem_singleton] at hc
    rcases hc with h | h | h | h
    · rw [h]; decide
    · exact hmid c h
    · rw [h]; decide
    · simp at h
  obtain ⟨tail, htp, hstr⟩ :=
    strip_wrapped pre (lbrace :: (mid ++ [rbrace])) post hpre hj hpost
  have h1 := extract_slice (wrapInMarkdown pre (lbrace :: (mid ++ [rbrace])) post)
    pre mid tail hstr hpreL (fun hmem => hpostR (htp _ hmem))
  have h2 := extract_bare mid hmid
  exact ⟨by rw [h1, h2], h2⟩

/-- Claim C8, counterexample: with surrounding prose that itself contains
braces — here the leading prose "Here \x7bis\x7d: " — extraction from the
wrapped form differs from extraction from the bare payload `\x7b\x7d` (the
slice starts at the prose's `\x7b`), so the equation does not hold for
arbitrary surrounding prose. -/
theorem c8_counterexample :
    extractJSON (wrapInMarkdown "Here \x7bis\x7d: ".toList [lbrace, rbrace]
        "Done.".toList) ≠
      extractJSON [lbrace, rbrace] := by
  decide

/-- Witness for `c8_extract_wrapped_eq_bare` at concrete brace-free,
backtick-free prose and a concrete payload. -/
theorem c8_extract_wrapped_eq_bare_witness :
    extractJSON (wrapInMarkdown "Candidate evaluation: ".toList
        (lbrace :: ("ok".toList ++ [rbrace])) " Regards.".toList) =
        extractJSON (lbrace :: ("ok".toList ++ [rbrace])) ∧
      extractJSON (lbrace :: ("ok".toList ++ [rbrace])) =
        lbrace :: ("ok".toList ++ [rbrace]) :=
  c8_extract_wrapped_eq_bare "Candidate evaluation: ".toList "ok".toList
    " Regards.".toList (by decide) (by decide) (by decide) (by decide) (by decide)

/-! ## Evaluator pipeline (internal/services/evaluator.go + prompt.go)

The evaluation run is embedded as a pure function over a collaborator record
`Collabs`: document store, PDF text extraction, embedding, vector search,
generation attempts, JSON schema decoding (`encoding/json` unmarshalling into
the score structs) and `fmt` float formatting are oracles, reflecting the
spec treating them as external capabilities.  Repository transitions are the
`updateStatus` / `updateError` / `updateResult` functions above, threaded
through a store of type `Option JobRecord`. -/

/-- A document row, read-only: only its file path is consumed by the run. -/
structure DocumentRecord where
  filePath : String
deriving DecidableEq, Repr

/-- `PDFContent` returned by `ExtractTextWithMetaData`. -/
structure PDFContent where
  text : String
  pageCount : Nat
deriving DecidableEq, Repr

/-- `SearchResult` (qdrant service, part_003). -/
structure SearchResult where
  id : String
  score : Rat
  text : String
  docType : String
deriving DecidableEq, Repr

/-- `CVEvaluationResult` (evaluator.go), float64 scores carried as `Rat`. -/
structure CVEvaluationResult where
  technicalSkillsScore : Rat
  experienceLevelScore : Rat
  achievementsScore : Rat
  culturalFitScore : Rat
  weightedAverage : Rat
  matchRate : Rat
  feedback : String
deriving DecidableEq, Repr

/-- `ProjectEvaluationResult` (evaluator.go). -/
structure ProjectEvaluationResult where
  correctnessScore : Rat
  codeQualityScore : Rat
  resilienceScore : Rat
  documentationScore : Rat
  creativityScore : Rat
  weightedAverage : Rat
  projectScore : Rat
  feedback : String
deriving DecidableEq, Repr

/-- The fixed all-zero-score CV result substituted for an empty generation
response. -/
def cvFallbackResult : CVEvaluationResult :=
  { technicalSkillsScore := 0
    experienceLevelScore := 0
    achievementsScore := 0
    culturalFitScore := 0
    weightedAverage := 0
    matchRate := 0
    feedback := "Failed to evaluate CV due to API response issues. Please try again later." }

/-- The fixed all-zero-score project result substituted for an empty
generation response. -/
def projectFallbackResult : ProjectEvaluationResult :=
  { correctnessScore := 0
    codeQualityScore := 0
    resilienceScore := 0
    documentationScore := 0
    creativityScore := 0
    weightedAverage := 0
    projectScore := 0
    feedback := "Failed to evaluate project due to API response issues. Please try again later." }

/-- `BuildCVEvaluationPrompt` (prompt.go): a pure string template. -/
def buildCVEvaluationPrompt (cvText jobDescription scoringRubric jobTitle : String) :
    String :=
  "You are an expert HR recruiter evaluating a candidate\x27s CV for a " ++ jobTitle ++
    " position.\n\nJOB DESCRIPTION:\n" ++ jobDescription ++
    "\n\nSCORING RUBRIC:\n" ++ scoringRubric ++
    "\n\nCANDIDATE CV:\n" ++ cvText ++
    "\n\nYour task is to evaluate the candidate\x27s CV against the job description using the scoring rubric provided.\n\nEvaluate the following parameters (1-5 scale):\n1. Technical Skills Match (Weight: 40%) - Alignment with job requirements (backend, databases, APIs, cloud, AI/LLM)\n2. Experience Level (Weight: 25%) - Years of experience and project complexity\n3. Relevant Achievements (Weight: 20%) - Impact of past work (scaling, performance, adoption)\n4. Cultural/Collaboration Fit (Weight: 15%) - Communication, learning mindset, teamwork/leadership\n\nReturn your response in the following JSON format:\n\x7b\n  \"technical_skills_score\": <1-5>,\n  \"experience_level_score\": <1-5>,\n  \"achievements_score\": <1-5>,\n  \"cultural_fit_score\": <1-5>,\n  \"weighted_average\": <calculated weighted average>,\n  \"match_rate\": <weighted_average * 0.2, as decimal 0-1>,\n  \"feedback\": \"<detailed feedback 3-5 sentences explaining strengths and gaps>\"\n\x7d\n\nBe objective and thorough. Provide specific examples from the CV to justify your scores."

/-- `BuildProjectEvaluationPrompt` (prompt.go). -/
def buildProjectEvaluationPrompt (projectText caseStudyBrief scoringRubric : String) :
    String :=
  "You are an expert technical evaluator assessing a candidate\x27s project report for a backend developer take-home assignment.\n\nCASE STUDY BRIEF (Requirements):\n" ++
    caseStudyBrief ++
    "\n\nSCORING RUBRIC:\n" ++ scoringRubric ++
    "\n\nCANDIDATE\x27S PROJECT REPORT:\n" ++ projectText ++
    "\n\nYour task is to evaluate the candidate\x27s project report against the case study requirements using the scoring rubric.\n\nEvaluate the following parameters (1-5 scale):\n1. Correctness (Weight: 30%) - Implements prompt design, LLM chaining, RAG context injection\n2. Code Quality & Structure (Weight: 25%) - Clean, modular, reusable, tested\n3. Resilience & Error Handling (Weight: 20%) - Handles long jobs, retries, randomness, API failures\n4. Documentation & Explanation (Weight: 15%) - README clarity, setup instructions, trade-off explanations\n5. Creativity/Bonus (Weight: 10%) - Extra features beyond requirements\n\nReturn your response in the following JSON format:\n\x7b\n  \"correctness_score\": <1-5>,\n  \"code_quality_score\": <1-5>,\n  \"resilience_score\": <1-5>,\n  \"documentation_score\": <1-5>,\n  \"creativity_score\": <1-5>,\n  \"weighted_average\": <calculated weighted average>,\n  \"project_score\": <weighted_average as decimal>,\n  \"feedback\": \"<detailed feedback 3-5 sentences explaining what was done well and what could be improved>\"\n\x7d\n\nBe thorough and specific. Reference actual implementation details from the report."

/-- `BuildFinalSummaryPrompt` (prompt.go); the two `%.2f` interpolations go
through the `fmtScore` oracle. -/
def buildFinalSummaryPrompt (fmtScore : Rat → String)
    (cvFeedback projectFeedback : String) (cvMatchRate projectScore : Rat)
    (jobTitle : String) : String :=
  "You are an expert technical hiring manager making a final assessment of a candidate for a " ++
    jobTitle ++
    " position.\n\nCV EVALUATION RESULTS:\n- Match Rate: " ++ fmtScore cvMatchRate ++
    " (out of 1.0)\n- Feedback: " ++ cvFeedback ++
    "\n\nPROJECT EVALUATION RESULTS:\n- Project Score: " ++ fmtScore projectScore ++
    " (out of 5.0)\n- Feedback: " ++ projectFeedback ++
    "\n\nBased on both evaluations, provide a concise overall summary (3-5 sentences) that includes:\n1. Overall strengths of the candidate\n2. Key gaps or areas for improvement\n3. Final recommendation (Strong Hire / Hire / Maybe / No Hire)\n\nReturn ONLY the summary text, no JSON format needed. Be direct and actionable."

/-- The `for i, result := range results` loop body of `FormatRAGContext`. -/
def formatParts (fmtScore : Rat → String) : Nat → List SearchResult → List String
  | _, [] => []
  | i, r :: rest =>
      ("--- Context " ++ toString (i + 1) ++ " (Score: " ++ fmtScore r.score ++
          ") ---\n" ++ r.text.trim) :: formatParts fmtScore (i + 1) rest

/-- `strings.Join(parts, "\n\n")`. -/
def joinSepPP : List String → String
  | [] => ""
  | [s] => s
  | s :: rest => s ++ "\n\n" ++ joinSepPP rest

/-- `FormatRAGContext` (prompt.go): the "No relevant context found."
sentinel for an empty result list, otherwise the scored snippets joined by
blank lines. -/
def formatRAGContext (fmtScore : Rat → String) (results : List SearchResult) :
    String :=
  if results = [] then "No relevant context found."
  else joinSepPP (formatParts fmtScore 0 results)

/-- The run's collaborators (section 6 of the spec): stores, extraction,
embedding, retrieval, generation, JSON decoding, float formatting, and the
retry configuration. -/
structure Collabs where
  docFind : Nat → Except String DocumentRecord
  parsePDF : String → Except String PDFContent
  embed : String → Except String (List Rat)
  search : List Rat → String → Nat → Except String (List SearchResult)
  genAttempt : String → Rat → Nat → Except String String
  decodeCV : String → Except String CVEvaluationResult
  decodeProject : String → Except String ProjectEvaluationResult
  fmtScore : Rat → String
  maxRetries : Nat
  ctxDone : Bool

/-- `retrieveContext` (evaluator.go): embed the query once, then search each
category with top-3, skipping failed categories, and format the accumulated
results. -/
def retrieveContext (c : Collabs) (queryText : String) (docTypes : List String) :
    Except String String :=
  match c.embed queryText with
  | Except.error e => Except.error ("failed to generate query embedding: " ++ e)
  | Except.ok emb =>
      Except.ok (formatRAGContext c.fmtScore
        (docTypes.foldl (fun acc dt =>
          match c.search emb dt 3 with
          | Except.error _ => acc
          | Except.ok rs => acc ++ rs) []))

/-- The context value that `EvaluateCandidate` hands to the prompt builder:
the assembled context on success, the empty string when `retrieveContext`
fails (the warn-and-continue branch in steps 2 of the run). -/
def retrieveContextOrEmpty (c : Collabs) (queryText : String)
    (docTypes : List String) : String :=
  match retrieveContext c queryText docTypes with
  | Except.ok ctx => ctx
  | Except.error _ => ""

/-- `parseJSONResponse` (evaluator.go) for the CV schema: extract the JSON
substring, then decode through the `encoding/json` oracle. -/
def parseJSONResponseCV (decodeCV : String → Except String CVEvaluationResult)
    (response : String) : Except String CVEvaluationResult :=
  match decodeCV (String.mk (extractJSON response.toList)) with
  | Except.error e =>
      Except.error ("failed to unmarshal JSON: " ++ e ++ "\nResponse: " ++ response)
  | Except.ok r => Except.ok r

/-- `parseJSONResponse` for the project schema. -/
def parseJSONResponseProject
    (decodeProject : String → Except String ProjectEvaluationResult)
    (response : String) : Except String ProjectEvaluationResult :=
  match decodeProject (String.mk (extractJSON response.toList)) with
  | Except.error e =>
      Except.error ("failed to unmarshal JSON: " ++ e ++ "\nResponse: " ++ response)
  | Except.ok r => Except.ok r

/-- `evaluateCV` (evaluator.go): build the prompt (context in the
job-description slot, empty rubric slot), generate with retry at temperature
0.3, substitute the zero-score fallback on an empty response, else decode. -/
def evaluateCV (c : Collabs) (cvText context jobTitle : String) :
    Except String CVEvaluationResult :=
  match (generateTextWithRetry
      (fun i => c.genAttempt (buildCVEvaluationPrompt cvText context "" jobTitle)
        (3/10) i) c.ctxDone c.maxRetries).1 with
  | Except.error e =>
      Except.error ("failed to generate CV evaluation: " ++ genErrString e)
  | Except.ok response =>
      if response = "" then Except.ok cvFallbackResult
      else
        match parseJSONResponseCV c.decodeCV response with
        | Except.error e =>
            Except.error ("failed to parse CV evaluation response: " ++ e)
        | Except.ok r => Except.ok r

/-- `evaluateProject` (evaluator.go), the same procedure for the project
stage. -/
def evaluateProject (c : Collabs) (projectText context : String) :
    Except String ProjectEvaluationResult :=
  match (generateTextWithRetry
      (fun i => c.genAttempt (buildProjectEvaluationPrompt projectText context "")
        (3/10) i) c.ctxDone c.maxRetries).1 with
  | Except.error e =>
      Except.error ("failed to generate project evaluation: " ++ genErrString e)
  | Except.ok response =>
      if response = "" then Except.ok projectFallbackResult
      else
        match parseJSONResponseProject c.decodeProject response with
        | Except.error e =>
            Except.error ("failed to parse project evaluation response: " ++ e)
        | Except.ok r => Except.ok r

/-- `generateSummary` (evaluator.go): summary prompt at temperature 0.5,
trimmed. -/
def generateSummary (c : Collabs) (cvResult : CVEvaluationResult)
    (projectResult : ProjectEvaluationResult) (jobTitle : String) :
    Except String String :=
  match (generateTextWithRetry
      (fun i => c.genAttempt
        (buildFinalSummaryPrompt c.fmtScore cvResult.feedback projectResult.feedback
          cvResult.matchRate projectResult.projectScore jobTitle) (1/2) i)
      c.ctxDone c.maxRetries).1 with
  | Except.error e => Except.error ("failed to generate summary: " ++ genErrString e)
  | Except.ok summary => Except.ok summary.trim

/-- `EvaluateCandidate` (evaluator.go): the whole run as a function from the
stored row to the final stored row and the run result, mirroring the Go
control flow step by step (status to Processing, loads, parses, contexts,
three generation stages, final persist). -/
def evaluateCandidate (c : Collabs) (store : Option JobRecord) :
    Option JobRecord × Except String Unit :=
  match updateStatus store EvaluationStatus.processing with
  | (s1, Except.error e) => (s1, Except.error ("failed to update status: " ++ e))
  | (s1, Except.ok _) =>
    match findByID s1 with
    | Except.error e =>
        ((updateError s1 e).1, Except.error ("failed to get evaluation: " ++ e))
    | Except.ok ev =>
      match c.docFind ev.cvDocumentID with
      | Except.error e =>
          ((updateError s1 ("CV document not found: " ++ e)).1,
            Except.error ("failed to get CV document: " ++ e))
      | Except.ok cvDoc =>
        match c.docFind ev.projectDocumentID with
        | Except.error e =>
            ((updateError s1 ("Project document not found: " ++ e)).1,
              Except.error ("failed to get project document: " ++ e))
        | Except.ok projectDoc =>
          match c.parsePDF cvDoc.filePath with
          | Except.error e =>
              ((updateError s1 ("Failed to parse CV: " ++ e)).1,
                Except.error ("failed to parse CV: " ++ e))
          | Except.ok cvContent =>
            match c.parsePDF projectDoc.filePath with
            | Except.error e =>
                ((updateError s1 ("Failed to parse project report: " ++ e)).1,
                  Except.error ("failed to parse project report: " ++ e))
            | Except.ok projectContent =>
              match evaluateCV c cvContent.text
                  (retrieveContextOrEmpty c cvContent.text
                    ["job_description", "cv_rubric"]) ev.jobTitle with
              | Except.error e =>
                  ((updateError s1 ("Failed to evaluate CV: " ++ e)).1,
                    Except.error ("failed to evaluate CV: " ++ e))
              | Except.ok cvResult =>
                match evaluateProject c projectContent.text
                    (retrieveContextOrEmpty c projectContent.text
                      ["case_study", "project_rubric"]) with
                | Except.error e =>
                    ((updateError s1 ("Failed to evaluate project: " ++ e)).1,
                      Except.error ("failed to evaluate project: " ++ e))
                | Except.ok projectResult =>
                  match generateSummary c cvResult projectResult ev.jobTitle with
                  | Except.error e =>
                      ((updateError s1 ("Failed to generate summary: " ++ e)).1,
                        Except.error ("failed to generate summary: " ++ e))
                  | Except.ok overallSummary =>
                    match updateResult s1
                        { cvMatchRate := some cvResult.matchRate
                          cvFeedback := some cvResult.feedback
                          projectScore := some projectResult.projectScore
                          projectFeedback := some projectResult.feedback
                          overallSummary := some overallSummary } with
                    | (s2, Except.error e) =>
                        (s2, Except.error ("failed to save results: " ++ e))
                    | (s2, Except.ok _) => (s2, Except.ok ())

theorem joinSepPP_head_length (ps : List String) (p : String) :
    p.length ≤ (joinSepPP (p :: ps)).length := by
  induction ps with
  | nil => simp [joinSepPP]
  | cons q qs _ =>
      simp only [joinSepPP, String.length_append]
      omega

theorem retrieveContext_ok_ne_empty (c : Collabs) (q : String)
    (dts : List String) (s : String)
    (h : retrieveContext c q dts = Except.ok s) : s ≠ "" := by
  unfold retrieveContext at h
  cases hemb : c.embed q with
  | error e => rw [hemb] at h; simp at h
  | ok emb =>
      rw [hemb] at h
      simp only [Except.ok.injEq] at h
      rw [← h]
      unfold formatRAGContext
      split
      · decide
      · rename_i hne
        cases hres : dts.foldl (fun acc dt =>
            match c.search emb dt 3 with
            | Except.error _ => acc
            | Except.ok rs => acc ++ rs) [] with
        | nil => exact absurd hres hne
        | cons r rest =>
            intro hempty
            have hlen := joinSepPP_head_length
              (formatParts c.fmtScore 1 rest)
              ("--- Context " ++ toString (0 + 1) ++ " (Score: " ++
                c.fmtScore r.score ++ ") ---\n" ++ r.text.trim)
            rw [show formatParts c.fmtScore 0 (r :: rest) =
              ("--- Context " ++ toString (0 + 1) ++ " (Score: " ++
                c.fmtScore r.score ++ ") ---\n" ++ r.text.trim) ::
                formatParts c.fmtScore 1 rest from rfl] at hempty
            rw [hempty] at hlen
            simp only [String.length_append] at hlen
            have h12 : ("--- Context ").length = 12 := rfl
            have h0 : ("" : String).length = 0 := rfl
            omega

/-- Claim C2, amended: whenever the context assembler itself succeeds, the
string it returns is never empty — in particular with no category results it
is the explicit "No relevant context found." sentinel — but on the path
where embedding the query fails, `EvaluateCandidate` substitutes the empty
string for the context before handing it to the prompt builder (the
`cvContext = ""` / `projectContext = ""` warning branches), so the "never
empty, including embedding failure" claim does not hold (see the
counterexample). -/
theorem c2_context_nonempty_on_success (c : Collabs) (q : String)
    (dts : List String) :
    (∀ s, retrieveContext c q dts = Except.ok s → s ≠ "") ∧
    (∀ emb, c.embed q = Except.ok emb →
      (∀ dt ∈ dts, c.search emb dt 3 = Except.ok []) →
      retrieveContextOrEmpty c q dts = "No relevant context found.") ∧
    (∀ e, c.embed q = Except.error e → retrieveContextOrEmpty c q dts = "") := by
  refine ⟨retrieveContext_ok_ne_empty c q dts, ?_, ?_⟩
  · intro emb hemb hsearch
    unfold retrieveContextOrEmpty retrieveContext
    rw [hemb]
    dsimp only
    have hfold : dts.foldl (fun acc dt =>
        match c.search emb dt 3 with
        | Except.error _ => acc
        | Except.ok rs => acc ++ rs) [] = [] := by
      have : ∀ l : List String, (∀ dt ∈ l, c.search emb dt 3 = Except.ok []) →
          ∀ acc : List SearchResult, l.foldl (fun acc dt =>
            match c.search emb dt 3 with
            | Except.error _ => acc
            | Except.ok rs => acc ++ rs) acc = acc := by
        intro l
        induction l with
        | nil => intro _ acc; rfl
        | cons d ds ih =>
            intro hs acc
            simp only [List.foldl_cons]
            rw [hs d (List.mem_cons_self d ds)]
            simp only [List.append_nil]
            exact ih (fun dt hdt => hs dt (List.mem_cons_of_mem d hdt)) acc
      exact this dts hsearch []
    rw [hfold]
    rfl
  · intro e hemb
    unfold retrieveContextOrEmpty retrieveContext
    rw [hemb]

/-- Collaborators whose embedding call fails (and nothing else matters). -/
def c2FailingCollabs : Collabs :=
  { docFind := fun _ => Except.error "document not found"
    parsePDF := fun _ => Except.error "no file"
    embed := fun _ => Except.error "embedding service down"
    search := fun _ _ _ => Except.ok []
    genAttempt := fun _ _ _ => Except.error "service down"
    decodeCV := fun _ => Except.error "bad json"
    decodeProject := fun _ => Except.error "bad json"
    fmtScore := fun _ => "0.00"
    maxRetries := 3
    ctxDone := false }

/-- Claim C2, counterexample: when embedding the query fails, the context
string that `EvaluateCandidate` hands to the prompt builder (the value of
`retrieveContextOrEmpty`, which the run passes as the job-description slot
of `buildCVEvaluationPrompt`) is the empty string, not the sentinel. -/
theorem c2_counterexample :
    retrieveContextOrEmpty c2FailingCollabs "candidate cv text"
      ["job_description", "cv_rubric"] = "" := rfl

/-- Collaborators whose embedding succeeds but every search returns no
results. -/
def c2NoResultsCollabs : Collabs :=
  { docFind := fun _ => Except.error "document not found"
    parsePDF := fun _ => Except.error "no file"
    embed := fun _ => Except.ok [1]
    search := fun _ _ _ => Except.ok []
    genAttempt := fun _ _ _ => Except.error "service down"
    decodeCV := fun _ => Except.error "bad json"
    decodeProject := fun _ => Except.error "bad json"
    fmtScore := fun _ => "0.00"
    maxRetries := 3
    ctxDone := false }

/-- Witness for `c2_context_nonempty_on_success`: with no category results
the assembler returns the non-empty sentinel. -/
theorem c2_context_nonempty_on_success_witness :
    retrieveContextOrEmpty c2NoResultsCollabs "candidate cv text"
      ["job_description", "cv_rubric"] = "No relevant context found." :=
  (c2_context_nonempty_on_success c2NoResultsCollabs "candidate cv text"
    ["job_description", "cv_rubric"]).2.1 [1] rfl
    (by intro dt _; rfl)

/-- Claim C5: when the CV document lookup fails (and likewise the project
document lookup, after a successful CV lookup), the run ends with the job
Failed, the recorded error message non-empty and containing "not found"
(exhibited by the explicit decomposition around the literal "not found"),
the run returning the wrapped error, and no result fields set. -/
theorem c5_doc_lookup_failed (c : Collabs) (j : JobRecord) (e : String)
    (h1 : j.cvMatchRate = none) (h2 : j.cvFeedback = none)
    (h3 : j.projectScore = none) (h4 : j.projectFeedback = none)
    (h5 : j.overallSummary = none) :
    (c.docFind j.cvDocumentID = Except.error e →
      evaluateCandidate c (some j) =
        (some { j with
            status := EvaluationStatus.failed,
            errorMessage := some ("CV document not found: " ++ e) },
          Except.error ("failed to get CV document: " ++ e)) ∧
      ("CV document not found: " ++ e) ≠ "" ∧
      "CV document " ++ ("not found" ++ (": " ++ e)) =
        "CV document not found: " ++ e ∧
      resultFieldsPopulated { j with
        status := EvaluationStatus.failed,
        errorMessage := some ("CV document not found: " ++ e) } = false) ∧
    (∀ d, c.docFind j.cvDocumentID = Except.ok d →
      c.docFind j.projectDocumentID = Except.error e →
      evaluateCandidate c (some j) =
        (some { j with
            status := EvaluationStatus.failed,
            errorMessage := some ("Project document not found: " ++ e) },
          Except.error ("failed to get project document: " ++ e)) ∧
      ("Project document not found: " ++ e) ≠ "" ∧
      "Project document " ++ ("not found" ++ (": " ++ e)) =
        "Project document not found: " ++ e ∧
      resultFieldsPopulated { j with
        status := EvaluationStatus.failed,
        errorMessage := some ("Project document not found: " ++ e) } = false) := by
  constructor
  · intro hcv
    refine ⟨?_, ?_, ?_, ?_⟩
    · simp only [evaluateCandidate, updateStatus, findByID, updateError, hcv]
    · intro hemp
      have hl := congrArg String.length hemp
      rw [String.length_append] at hl
      have he1 : ("CV document not found: ").length = 23 := rfl
      have he2 : ("" : String).length = 0 := rfl
      omega
    · simp only [← String.append_assoc]
      rfl
    · simp [resultFieldsPopulated, h1, h2, h3, h4, h5]
  · intro d hcv hproj
    refine ⟨?_, ?_, ?_, ?_⟩
    · simp only [evaluateCandidate, updateStatus, findByID, updateError, hcv, hproj]
    · intro hemp
      have hl := congrArg String.length hemp
      rw [String.length_append] at hl
      have he1 : ("Project document not found: ").length = 28 := rfl
      have he2 : ("" : String).length = 0 := rfl
      omega
    · simp only [← String.append_assoc]
      rfl
    · simp [resultFieldsPopulated, h1, h2, h3, h4, h5]

/-- Witness for `c5_doc_lookup_failed`: the failing document store of
`c2FailingCollabs` on the concrete fresh job. -/
theorem c5_doc_lookup_failed_witness :
    evaluateCandidate c2FailingCollabs (some sampleFreshJob) =
      (some { sampleFreshJob with
          status := EvaluationStatus.failed,
          errorMessage := some ("CV document not found: " ++ "document not found") },
        Except.error ("failed to get CV document: " ++ "document not found")) ∧
    ("CV document not found: " ++ "document not found") ≠ "" ∧
    "CV document " ++ ("not found" ++ (": " ++ "document not found")) =
      "CV document not found: " ++ "document not found" ∧
    resultFieldsPopulated { sampleFreshJob with
      status := EvaluationStatus.failed,
      errorMessage := some ("CV document not found: " ++ "document not found") } = false :=
  (c5_doc_lookup_failed c2FailingCollabs sampleFreshJob "document not found"
    rfl rfl rfl rfl rfl).1 rfl

/-- Claim C4: when the generation call of the CV stage (or the project
stage) succeeds with an empty string, the stage does not fail: it returns
the fixed all-zero-score fallback struct with its explanatory feedback, and
a run whose stage generations return empty strings still reaches Completed,
persisting the fallback scores and feedback. -/
theorem c4_empty_generation_zero_fallback (c : Collabs) (j : JobRecord)
    (doc : DocumentRecord) (content : PDFContent) (summaryText : String)
    (hdoc : ∀ n, c.docFind n = Except.ok doc)
    (hparse : ∀ p, c.parsePDF p = Except.ok content)
    (hstage : ∀ prompt, (generateTextWithRetry
      (fun i => c.genAttempt prompt (3/10) i) c.ctxDone c.maxRetries).1 =
        Except.ok "")
    (hsummary : ∀ prompt, (generateTextWithRetry
      (fun i => c.genAttempt prompt (1/2) i) c.ctxDone c.maxRetries).1 =
        Except.ok summaryText) :
    (∀ cvText context jobTitle, evaluateCV c cvText context jobTitle =
      Except.ok cvFallbackResult) ∧
    (∀ projectText context, evaluateProject c projectText context =
      Except.ok projectFallbackResult) ∧
    evaluateCandidate c (some j) =
      (some { j with
          status := EvaluationStatus.completed,
          cvMatchRate := some cvFallbackResult.matchRate,
          cvFeedback := some cvFallbackResult.feedback,
          projectScore := some projectFallbackResult.projectScore,
          projectFeedback := some projectFallbackResult.feedback,
          overallSummary := some summaryText.trim },
        Except.ok ()) := by
  have hA : ∀ cvText context jobTitle, evaluateCV c cvText context jobTitle =
      Except.ok cvFallbackResult := by
    intro cvText context jobTitle
    unfold evaluateCV
    rw [hstage]
    simp
  have hB : ∀ projectText context, evaluateProject c projectText context =
      Except.ok projectFallbackResult := by
    intro projectText context
    unfold evaluateProject
    rw [hstage]
    simp
  have hS : ∀ cvR pR jt, generateSummary c cvR pR jt =
      Except.ok summaryText.trim := by
    intro cvR pR jt
    unfold generateSummary
    rw [hsummary]
  refine ⟨hA, hB, ?_⟩
  simp only [evaluateCandidate, updateStatus, findByID, hdoc, hparse, hA, hB, hS,
    updateResult]

/-- Collaborators whose generation always succeeds with the empty string. -/
def c4EmptyGenCollabs : Collabs :=
  { docFind := fun _ => Except.ok { filePath := "file.pdf" }
    parsePDF := fun _ => Except.ok { text := "candidate text", pageCount := 1 }
    embed := fun _ => Except.error "embedding service down"
    search := fun _ _ _ => Except.ok []
    genAttempt := fun _ _ _ => Except.ok ""
    decodeCV := fun _ => Except.error "bad json"
    decodeProject := fun _ => Except.error "bad json"
    fmtScore := fun _ => "0.00"
    maxRetries := 3
    ctxDone := false }

/-- Witness for `c4_empty_generation_zero_fallback`: the run with
empty-string generation completes with the zero-score fallback fields. -/
theorem c4_empty_generation_zero_fallback_witness :
    evaluateCandidate c4EmptyGenCollabs (some sampleFreshJob) =
      (some { sampleFreshJob with
          status := EvaluationStatus.completed,
          cvMatchRate := some cvFallbackResult.matchRate,
          cvFeedback := some cvFallbackResult.feedback,
          projectScore := some projectFallbackResult.projectScore,
          projectFeedback := some projectFallbackResult.feedback,
          overallSummary := some ("" : String).trim },
        Except.ok ()) :=
  (c4_empty_generation_zero_fallback c4EmptyGenCollabs sampleFreshJob
    { filePath := "file.pdf" } { text := "candidate text", pageCount := 1 } ""
    (fun _ => rfl) (fun _ => rfl) (fun _ => rfl) (fun _ => rfl)).2.2

/-! ## Job queue and worker pool (internal/services/worker.go)

A small-step transition system over the pool's shared state: the buffered
job channel (capacity 100), the `stopChan` closed flag, each worker
goroutine's phase, and the exit flags of the reconciliation poller and of
`Stop` itself (`wg.Wait` returning).  Go's `select` picks nondeterministically
among READY cases, so a worker sitting in `select` with the queue non-empty
may take the receive case even after `stopChan` is closed — the transition
system deliberately has no `stopClosed = false` guard on `dequeue`. -/

/-- The phase of one worker goroutine of `processJobs`. -/
inductive WPhase where
  | idle
  | running (jid : Nat)
  | exited
deriving DecidableEq, Repr

/-- The pool's shared state. -/
structure WConfig where
  queue : List Nat
  stopClosed : Bool
  workers : List WPhase
  pollerExited : Bool
  stopReturned : Bool
deriving DecidableEq, Repr

/-- One step of the pool (worker.go semantics):
`enqueue` is `EnqueueJob`'s successful buffered send (capacity 100; a send
can still win the select after close while capacity remains);
`enqueueAbandoned` is `EnqueueJob`'s stop branch (job dropped);
`dequeue` is a worker's receive branch — available whenever the queue is
non-empty, with or without `stopClosed` (select nondeterminism);
`finish` is `EvaluateCandidate` returning, the worker looping back;
`workerExit` is a worker's stop branch; `closeStop` is `Stop`'s
`close(stopChan)`; `pollerExit` is the poller's stop branch; `stopReturn` is
`Stop`'s `wg.Wait()` returning, which requires every worker goroutine and
the poller to have called `wg.Done`. -/
inductive WStep : WConfig → WConfig → Prop where
  | enqueue (s : WConfig) (jid : Nat) (h : s.queue.length < 100) :
      WStep s { s with queue := s.queue ++ [jid] }
  | enqueueAbandoned (s : WConfig) (h : s.stopClosed = true) : WStep s s
  | dequeue (s : WConfig) (i jid : Nat) (rest : List Nat)
      (hw : s.workers[i]? = some WPhase.idle) (hq : s.queue = jid :: rest) :
      WStep s { s with
        queue := rest,
        workers := s.workers.set i (WPhase.running jid) }
  | finish (s : WConfig) (i jid : Nat)
      (hw : s.workers[i]? = some (WPhase.running jid)) :
      WStep s { s with workers := s.workers.set i WPhase.idle }
  | workerExit (s : WConfig) (i : Nat) (hw : s.workers[i]? = some WPhase.idle)
      (hs : s.stopClosed = true) :
      WStep s { s with workers := s.workers.set i WPhase.exited }
  | closeStop (s : WConfig) (h : s.stopClosed = false) :
      WStep s { s with stopClosed := true }
  | pollerExit (s : WConfig) (h : s.stopClosed = true) :
      WStep s { s with pollerExited := true }
  | stopReturn (s : WConfig) (h : s.stopClosed = true)
      (hw : ∀ w ∈ s.workers, w = WPhase.exited) (hp : s.pollerExited = true) :
      WStep s { s with stopReturned := true }

/-- A state after `Stop` was invoked: stop closed, one idle worker, one job
still queued. -/
def c9Stopped : WConfig :=
  { queue := [7], stopClosed := true, workers := [WPhase.idle],
    pollerExited := false, stopReturned := false }

/-- The successor in which that worker has dequeued and started the job. -/
def c9AfterDequeue : WConfig :=
  { queue := [], stopClosed := true, workers := [WPhase.running 7],
    pollerExited := false, stopReturned := false }

/-- Claim C9, counterexample: after `Stop` has closed the stop channel, a
worker whose `select` also has the non-empty job queue ready may still take
the receive case and START a new job — the step from `c9Stopped` (stop
closed, worker idle) to `c9AfterDequeue` (worker running job 7) is a legal
transition of the pool, refuting "no new job starts processing after Stop".
-/
theorem c9_counterexample :
    WStep c9Stopped c9AfterDequeue ∧ c9Stopped.stopClosed = true ∧
      c9Stopped.workers[0]? = some WPhase.idle ∧
      c9AfterDequeue.workers[0]? = some (WPhase.running 7) := by
  refine ⟨?_, rfl, rfl, rfl⟩
  exact WStep.dequeue c9Stopped 0 7 [] rfl rfl

/-- Claim C9, amended: the remaining shutdown guarantees do hold on every
transition: `Stop` returns only once every worker loop and the poller have
exited (the `wg.Wait` guard), an in-flight job is never abandoned — the only
transition out of `running` is completing the job back to `idle` — a worker
exits only from `idle` with the stop channel closed, and the closed stop
channel stays closed.  What does not hold is "no new job starts processing
after Stop" (see the counterexample): a worker may still dequeue queued jobs
after the close because `select` chooses among ready cases
nondeterministically. -/
theorem c9_shutdown_guarantees (s s' : WConfig) (hstep : WStep s s') :
    (s'.stopReturned = true → s.stopReturned = true ∨
      (s.stopClosed = true ∧ (∀ w ∈ s.workers, w = WPhase.exited) ∧
        s.pollerExited = true)) ∧
    (∀ (i jid : Nat), s.workers[i]? = some (WPhase.running jid) →
      s'.workers[i]? = some (WPhase.running jid) ∨
        s'.workers[i]? = some WPhase.idle) ∧
    (∀ i : Nat, s'.workers[i]? = some WPhase.exited →
      s.workers[i]? = some WPhase.exited ∨
        (s.workers[i]? = some WPhase.idle ∧ s.stopClosed = true)) ∧
    (s.stopClosed = true → s'.stopClosed = true) := by
  cases hstep with
  | enqueue jid h =>
      exact ⟨fun h' => Or.inl h', fun i jid' h' => Or.inl h',
        fun i h' => Or.inl h', fun h' => h'⟩
  | enqueueAbandoned h =>
      exact ⟨fun h' => Or.inl h', fun i jid' h' => Or.inl h',
        fun i h' => Or.inl h', fun h' => h'⟩
  | dequeue i jid rest hw hq =>
      refine ⟨fun h' => Or.inl h', ?_, ?_, fun h' => h'⟩
      · intro i' jid' h'
        have hne : i ≠ i' := by
          intro he
          rw [he, h'] at hw
          simp at hw
        left
        show (s.workers.set i (WPhase.running jid))[i']? = some (WPhase.running jid')
        rw [List.getElem?_set_ne hne]
        exact h'
      · intro i' h'
        have h'' : (s.workers.set i (WPhase.running jid))[i']? =
          some WPhase.exited := h'
        by_cases he : i = i'
        · subst he
          rw [List.getElem?_set_self', hw] at h''
          simp at h''
        · rw [List.getElem?_set_ne he] at h''
          exact Or.inl h''
  | finish i jid hw =>
      refine ⟨fun h' => Or.inl h', ?_, ?_, fun h' => h'⟩
      · intro i' jid' h'
        by_cases he : i = i'
        · subst he
          right
          show (s.workers.set i WPhase.idle)[i]? = some WPhase.idle
          rw [List.getElem?_set_self', hw]
          rfl
        · left
          show (s.workers.set i WPhase.idle)[i']? = some (WPhase.running jid')
          rw [List.getElem?_set_ne he]
          exact h'
      · intro i' h'
        have h'' : (s.workers.set i WPhase.idle)[i']? = some WPhase.exited := h'
        by_cases he : i = i'
        · subst he
          rw [List.getElem?_set_self', hw] at h''
          simp at h''
        · rw [List.getElem?_set_ne he] at h''
          exact Or.inl h''
  | workerExit i hw hs =>
      refine ⟨fun h' => Or.inl h', ?_, ?_, fun h' => h'⟩
      · intro i' jid' h'
        have hne : i ≠ i' := by
          intro he
          rw [he, h'] at hw
          simp at hw
        left
        show (s.workers.set i WPhase.exited)[i']? = some (WPhase.running jid')
        rw [List.getElem?_set_ne hne]
        exact h'
      · intro i' h'
        have h'' : (s.workers.set i WPhase.exited)[i']? = some WPhase.exited := h'
        by_cases he : i = i'
        · subst he
          exact Or.inr ⟨hw, hs⟩
        · rw [List.getElem?_set_ne he] at h''
          exact Or.inl h''
  | closeStop h =>
      exact ⟨fun h' => Or.inl h', fun i jid' h' => Or.inl h',
        fun i h' => Or.inl h', fun _ => rfl⟩
  | pollerExit h =>
      exact ⟨fun h' => Or.inl h', fun i jid' h' => Or.inl h',
        fun i h' => Or.inl h', fun h' => h'⟩
  | stopReturn h hw hp =>
      exact ⟨fun _ => Or.inr ⟨h, hw, hp⟩, fun i jid' h' => Or.inl h',
        fun i h' => Or.inl h', fun _ => h⟩

/-- Witness for `c9_shutdown_guarantees` at a concrete `finish` step: the
only transition out of a running worker completes its job. -/
theorem c9_shutdown_guarantees_witness :
    ({ queue := [], stopClosed := true, workers := [WPhase.running 5],
        pollerExited := false, stopReturned := false } : WConfig).workers.set 0
          WPhase.idle = [WPhase.idle] ∧
    (([WPhase.running 5].set 0 WPhase.idle : List WPhase)[0]? =
        some (WPhase.running 5) ∨
      ([WPhase.running 5].set 0 WPhase.idle : List WPhase)[0]? =
        some WPhase.idle) :=
  ⟨rfl,
    (c9_shutdown_guarantees
      { queue := [], stopClosed := true, workers := [WPhase.running 5],
        pollerExited := false, stopReturned := false }
      { queue := [], stopClosed := true, workers := [WPhase.running 5].set 0 WPhase.idle,
        pollerExited := false, stopReturned := false }
      (WStep.finish _ 0 5 rfl)).2.1 0 5 rfl⟩
